import Mathlib

/-!
Verification development for the people-detection repository.

The Python sources `tracker.py` and `counter.py` are shallowly embedded
below.  Python `dict`s (which preserve insertion order) become
association lists `List (Nat × α)` with first-match lookup; Python
`set`s become duplicate-free lists used only through membership;
`datetime.now()` becomes an explicit rational `now` argument threaded
into every operation that reads the clock; centroid coordinates and
times are rationals.  Euclidean distances are represented by their
squares (`sqrt` is strictly monotone on nonnegative arguments, so
comparisons and arg-mins are unchanged; the single threshold comparison
`D[row, col] > max_distance` is translated exactly via `exceedsMax`).
Per the design notes of the specification, dictionary lookup misses are
modelled with `Option` results.
-/

namespace PeopleDet

/-- Lookup in an association list: the value of the first entry whose key
matches, mirroring Python dict lookup (keys are unique in a dict). -/
def alookup (l : List (Nat × α)) (k : Nat) : Option α :=
  match l with
  | [] => none
  | (k', v) :: t => if k' = k then some v else alookup t k

/-- Dict assignment `d[k] = v`: replace the first entry with key `k` in
place, or append a fresh entry, preserving Python's insertion order. -/
def aset (l : List (Nat × α)) (k : Nat) (v : α) : List (Nat × α) :=
  match l with
  | [] => [(k, v)]
  | (k', v') :: t => if k' = k then (k, v) :: t else (k', v') :: aset t k v

/-- Dict deletion `del d[k]`: drop every entry with key `k`. -/
def aerase (l : List (Nat × α)) (k : Nat) : List (Nat × α) :=
  l.filter (fun p => p.1 ≠ k)

/-- Set insertion `s.add(x)` for a Python set represented as a list. -/
def sinsert (x : Nat) (l : List Nat) : List Nat :=
  if x ∈ l then l else l ++ [x]

/-- Stable ordered insertion for a boolean comparator, used to model
both Python's stable `sorted` and (as a modelling choice for ties)
`numpy.argsort`. -/
def insOrd (le : α → α → Bool) (x : α) : List α → List α
  | [] => [x]
  | y :: ys => if le x y then x :: y :: ys else y :: insOrd le x ys

/-- Insertion sort with a boolean comparator. -/
def isort (le : α → α → Bool) : List α → List α
  | [] => []
  | x :: xs => insOrd le x (isort le xs)

/-- Bounding box `(x1, y1, x2, y2)` in pixel coordinates. -/
structure BBox where
  x1 : ℚ
  y1 : ℚ
  x2 : ℚ
  y2 : ℚ
  deriving DecidableEq, Inhabited

/-- One detection `[x1, y1, x2, y2, confidence]` as supplied to `Tracker.update`. -/
structure Det where
  x1 : ℚ
  y1 : ℚ
  x2 : ℚ
  y2 : ℚ
  conf : ℚ
  deriving DecidableEq, Inhabited

/-- The per-object timestamp record `{'first_seen', 'last_seen'}`. -/
structure TStamp where
  first_seen : ℚ
  last_seen : ℚ
  deriving DecidableEq, Inhabited

/-- The mutable state of `Tracker` (tracker.py).  Each Python instance
dictionary becomes an insertion-ordered association list.  The ReID model
object itself is external (spec §1); its `identify_person` answers enter
through the `frame` oracle argument of `register`/`update`. -/
structure TS where
  next_object_id : Nat
  objects : List (Nat × (ℚ × ℚ))
  disappeared : List (Nat × Nat)
  positions : List (Nat × BBox)
  timestamps : List (Nat × TStamp)
  states : List (Nat × String)
  entry_times : List (Nat × ℚ)
  exit_times : List (Nat × ℚ)
  max_disappeared : Nat
  max_distance : ℚ
  exit_timeout : ℚ
  reid_enabled : Bool
  person_ids : List (Nat × Nat)
  counted_people : List Nat
  deriving DecidableEq

namespace Tracker

/-- `Tracker.__init__` (tracker.py lines 10-54).  `reid_enabled` covers both
the configured value and the fallback to `False` when `PersonReID` fails
to load. -/
def init (max_disappeared : Nat) (max_distance exit_timeout : ℚ)
    (reid_enabled : Bool) : TS :=
  { next_object_id := 0, objects := [], disappeared := [], positions := [],
    timestamps := [], states := [], entry_times := [], exit_times := [],
    max_disappeared := max_disappeared, max_distance := max_distance,
    exit_timeout := exit_timeout, reid_enabled := reid_enabled,
    person_ids := [], counted_people := [] }

/-- `Tracker.mark_as_counted` (lines 118-124): fast-forward a `"new"` object
to `"scanned"`, stamping its entry time. -/
def mark_as_counted (s : TS) (now : ℚ) (object_id : Nat) : TS :=
  if (alookup s.states object_id).isSome then
    if alookup s.states object_id = some "new" then
      { s with states := aset s.states object_id "scanned",
               entry_times := aset s.entry_times object_id now }
    else s
  else s

/-- `Tracker.mark_as_scanned` (lines 102-116). -/
def mark_as_scanned (s : TS) (object_id : Nat) : TS × Bool :=
  if (alookup s.objects object_id).isSome then
    ({ s with states := aset s.states object_id "scanned" }, true)
  else (s, false)

/-- `Tracker.deregister` (lines 85-100): transition a `"scanned"` object to
`"exited"` (stamping the exit time and, with ReID on, adding its person id
to `counted_people`), then remove the object from the live maps. -/
def deregister (s : TS) (now : ℚ) (object_id : Nat) : TS :=
  let s :=
    if alookup s.states object_id = some "scanned" then
      let s1 := { s with states := aset s.states object_id "exited",
                         exit_times := aset s.exit_times object_id now }
      if s1.reid_enabled then
        match alookup s1.person_ids object_id with
        | some pid => { s1 with counted_people := sinsert pid s1.counted_people }
        | none => s1
      else s1
    else s
  { s with objects := aerase s.objects object_id,
           disappeared := aerase s.disappeared object_id,
           positions := aerase s.positions object_id }

/-- `Tracker.register` (lines 56-83).  `frame = some f` models the call with
a frame while ReID resolves the new track to person `f track_id`;
`frame = none` models `frame is None`. -/
def register (s : TS) (now : ℚ) (frame : Option (Nat → Nat))
    (centroid : ℚ × ℚ) (bbox : BBox) : TS × Nat :=
  let track_id := s.next_object_id
  let s := { s with objects := aset s.objects track_id centroid,
                    positions := aset s.positions track_id bbox,
                    disappeared := aset s.disappeared track_id 0,
                    timestamps := aset s.timestamps track_id ⟨now, now⟩,
                    states := aset s.states track_id "new" }
  let s :=
    if s.reid_enabled then
      match frame with
      | some f =>
        let person_id := f track_id
        let s := { s with person_ids := aset s.person_ids track_id person_id }
        if person_id ∈ s.counted_people then mark_as_counted s now track_id else s
      | none => s
    else s
  ({ s with next_object_id := track_id + 1 }, track_id)

/-- `Tracker.is_already_counted` (lines 126-135). -/
def is_already_counted (s : TS) (object_id : Nat) : Bool :=
  if s.reid_enabled = false then false
  else
    match alookup s.person_ids object_id with
    | some person_id => decide (person_id ∈ s.counted_people)
    | none => false

/-- One row of the dictionary returned by `Tracker.get_objects`. -/
structure ObjView where
  centroid : ℚ × ℚ
  bbox : BBox
  tstamps : TStamp
  state : String
  entry_time : Option ℚ
  exit_time : Option ℚ
  person_id : Option Nat
  already_counted : Bool
  deriving DecidableEq, Inhabited

/-- `Tracker.get_objects` (lines 256-281). -/
def get_objects (s : TS) : List (Nat × ObjView) :=
  s.objects.map (fun p =>
    (p.1, { centroid := p.2,
            bbox := (alookup s.positions p.1).getD default,
            tstamps := (alookup s.timestamps p.1).getD default,
            state := (alookup s.states p.1).getD "new",
            entry_time := alookup s.entry_times p.1,
            exit_time := alookup s.exit_times p.1,
            person_id := if s.reid_enabled then alookup s.person_ids p.1 else none,
            already_counted := is_already_counted s p.1 }))

/-- One iteration of the `check_for_exits` loop (lines 293-304).  Note the
source sets the state to `"exited"` before calling `deregister`, so the
`"scanned"` branch inside `deregister` is skipped. -/
def sweepOne (now : ℚ) (acc : TS × List Nat) (p : Nat × TStamp) : TS × List Nat :=
  let s := acc.1
  if alookup s.states p.1 = some "scanned" then
    if now - p.2.last_seen > s.exit_timeout ∧ (alookup s.objects p.1).isSome then
      let s1 := { s with states := aset s.states p.1 "exited",
                         exit_times := aset s.exit_times p.1 now }
      (deregister s1 now p.1, acc.2 ++ [p.1])
    else acc
  else acc

/-- `Tracker.check_for_exits` (lines 283-306), iterating over a snapshot of
`timestamps.items()`. -/
def check_for_exits (s : TS) (now : ℚ) : TS × List Nat :=
  s.timestamps.foldl (sweepOne now) (s, [])

/-- Squared Euclidean distance between two centroids.  The source compares
`scipy` Euclidean distances; squaring is order- and argmin-preserving. -/
def d2 (a b : ℚ × ℚ) : ℚ := (a.1 - b.1) ^ 2 + (a.2 - b.2) ^ 2

/-- Centroid of a detection (lines 183-186). -/
def centroidOf (d : Det) : ℚ × ℚ := ((d.x1 + d.x2) / 2, (d.y1 + d.y2) / 2)

/-- The stored bounding box of a detection (line 187). -/
def bboxOf (d : Det) : BBox := ⟨d.x1, d.y1, d.x2, d.y2⟩

/-- Minimum of a list of rationals (0 for the empty list, which never
occurs at use sites: the matching branch has at least one detection). -/
def listMin (l : List ℚ) : ℚ := l.foldl min (l.headD 0)

/-- Entry `D[r][c]` of the (squared) distance matrix (line 202). -/
def pairD2 (ocs ics : List (ℚ × ℚ)) (r c : Nat) : ℚ :=
  d2 (ocs.getD r (0, 0)) (ics.getD c (0, 0))

/-- `D.min(axis=1)` for row `r` (line 205). -/
def rowMin (ocs ics : List (ℚ × ℚ)) (r : Nat) : ℚ :=
  listMin ((List.range ics.length).map (pairD2 ocs ics r))

/-- `D.argmin(axis=1)` for row `r` (line 208): the first column attaining
the row minimum, as `numpy.argmin` returns the first occurrence. -/
def argminCol (ocs ics : List (ℚ × ℚ)) (r : Nat) : Nat :=
  ((List.range ics.length).find?
    (fun c => decide (pairD2 ocs ics r c = rowMin ocs ics r))).getD 0

/-- Exact translation of `sqrt dsq > m` for `dsq ≥ 0` (line 221): true when
`m` is negative, else compare squares. -/
def exceedsMax (dsq m : ℚ) : Bool :=
  if m < 0 then true else decide (dsq > m ^ 2)

/-- Whether row `r` is farther than `max_distance` from its argmin column. -/
def tooFar (ocs ics : List (ℚ × ℚ)) (maxd : ℚ) (r : Nat) : Bool :=
  exceedsMax (pairD2 ocs ics r (argminCol ocs ics r)) maxd

/-- `rows = D.min(axis=1).argsort()` (line 205): live-object row indices in
ascending order of their minimum distance.  `numpy.argsort`'s tie order is
implementation-defined; the embedding fixes the stable (first-index-first)
order. -/
def sortedRows (ocs ics : List (ℚ × ℚ)) : List Nat :=
  isort (fun a b => decide (rowMin ocs ics a ≤ rowMin ocs ics b))
    (List.range ocs.length)

/-- The greedy row-priority loop of lines 215-233: pair each row with its
argmin column unless the row or the column was already consumed or the
distance exceeds `max_distance`. -/
def greedyPairs (cols : Nat → Nat) (far : Nat → Bool) :
    List Nat → List Nat → List Nat → List (Nat × Nat)
  | [], _, _ => []
  | r :: rs, usedR, usedC =>
    if r ∈ usedR ∨ cols r ∈ usedC then greedyPairs cols far rs usedR usedC
    else if far r then greedyPairs cols far rs usedR usedC
    else (r, cols r) :: greedyPairs cols far rs (r :: usedR) (cols r :: usedC)

/-- The complete assignment computed by `update`'s matching step. -/
def matchPairs (ocs ics : List (ℚ × ℚ)) (maxd : ℚ) : List (Nat × Nat) :=
  greedyPairs (argminCol ocs ics) (tooFar ocs ics maxd) (sortedRows ocs ics) [] []

/-- The per-pair state mutation of lines 224-233: new centroid and bbox,
`disappeared` reset to 0, `last_seen` refreshed. -/
def applyMatch (now : ℚ) (object_ids : List Nat) (ics : List (ℚ × ℚ))
    (bbs : List BBox) (s : TS) (p : Nat × Nat) : TS :=
  let object_id := object_ids.getD p.1 0
  let s := { s with objects := aset s.objects object_id (ics.getD p.2 (0, 0)),
                    positions := aset s.positions object_id (bbs.getD p.2 default),
                    disappeared := aset s.disappeared object_id 0 }
  match alookup s.timestamps object_id with
  | some t =>
      { s with timestamps := aset s.timestamps object_id { t with last_seen := now } }
  | none => s

/-- Increment one object's `disappeared` counter and deregister it when the
incremented value exceeds `max_disappeared` (lines 168-173 and 237-244). -/
def bumpOne (now : ℚ) (s : TS) (object_id : Nat) : TS :=
  match alookup s.disappeared object_id with
  | none => s
  | some d =>
    let s := { s with disappeared := aset s.disappeared object_id (d + 1) }
    if d + 1 > s.max_disappeared then deregister s now object_id else s

/-- Fold of `bumpOne` over a snapshot of ids. -/
def bumpMany (now : ℚ) (ids : List Nat) (s : TS) : TS :=
  ids.foldl (bumpOne now) s

/-- Registration of a list of detections (lines 190-192 and 246-249). -/
def registerAll (now : ℚ) (frame : Option (Nat → Nat)) (dets : List Det)
    (s : TS) : TS :=
  dets.foldl
    (fun acc d => (register acc now frame (centroidOf d) (bboxOf d)).1) s

/-- The load-shedding step of lines 150-164: when live objects outnumber
twice the detections, deregister the stalest half (stable sort of
`disappeared.items()` by count descending, as Python's stable `sorted`
with `reverse=True`). -/
def loadshed (s : TS) (now : ℚ) (numDets : Nat) : TS :=
  if s.objects.length > 2 * numDets ∧ 0 < numDets then
    let objects_to_remove := isort (fun a b => decide (b.2 ≤ a.2)) s.disappeared
    (objects_to_remove.take (objects_to_remove.length / 2)).foldl
      (fun acc p => deregister acc now p.1) s
  else s

/-- The greedy assignment of `update`'s matching step, as live-object ids:
`object_ids[row]` for every assigned `(row, col)` pair. -/
def matchedIds (s : TS) (dets : List Det) : List Nat :=
  (matchPairs (s.objects.map Prod.snd) (dets.map centroidOf) s.max_distance).map
    (fun p => (s.objects.map Prod.fst).getD p.1 0)

/-- The ids of the live objects left unmatched by the assignment
(lines 236-239), in ascending row order (the Python `set` of small ints
iterates ascending). -/
def unmatchedRowIds (s : TS) (dets : List Det) : List Nat :=
  (((List.range (s.objects.map Prod.fst).length).filter
      (fun r => decide (r ∉
        (matchPairs (s.objects.map Prod.snd) (dets.map centroidOf)
          s.max_distance).map Prod.fst)))).map
    (fun r => (s.objects.map Prod.fst).getD r 0)

/-- The detection columns left unmatched by the assignment (line 247). -/
def unusedColsOf (s : TS) (dets : List Det) : List Nat :=
  (List.range (dets.map centroidOf).length).filter
    (fun c => decide (c ∉
      (matchPairs (s.objects.map Prod.snd) (dets.map centroidOf)
        s.max_distance).map Prod.snd))

/-- Lines 195-249 of `update`: apply the matched pairs, bump the unmatched
live objects, register the unmatched detections. -/
def matchStage (s : TS) (now : ℚ) (dets : List Det)
    (frame : Option (Nat → Nat)) : TS :=
  (unusedColsOf s dets).foldl
    (fun acc c =>
      (register acc now frame ((dets.map centroidOf).getD c (0, 0))
        ((dets.map bboxOf).getD c default)).1)
    (bumpMany now (unmatchedRowIds s dets)
      ((matchPairs (s.objects.map Prod.snd) (dets.map centroidOf)
          s.max_distance).foldl
        (applyMatch now (s.objects.map Prod.fst) (dets.map centroidOf)
          (dets.map bboxOf)) s))

/-- `Tracker.update` (lines 137-254).  The iteration order over the Python
integer sets `unused_rows`/`unused_cols` is modelled as ascending. -/
def update (s : TS) (now : ℚ) (detections : List Det)
    (frame : Option (Nat → Nat)) : TS :=
  let s := loadshed s now detections.length
  if detections.length = 0 then
    bumpMany now (s.disappeared.map Prod.fst) s
  else if s.objects.length = 0 then
    registerAll now frame detections s
  else
    matchStage s now detections frame

end Tracker

namespace VisitorCounter

/-- The record stored in `last_positions` (counter.py line 23). -/
structure LastPos where
  position : String
  counted : Bool
  deriving DecidableEq, Inhabited

/-- The mutable state of `VisitorCounter` (counter.py). -/
structure CS where
  line_position : ℚ
  direction : String
  count : Nat
  total_left : Nat
  total_right : Nat
  last_positions : List (Nat × LastPos)
  counted_ids : List Nat
  deriving DecidableEq

/-- Python `int()` truncation toward zero, applied to a rational. -/
def pyInt (q : ℚ) : ℤ := if 0 ≤ q then ⌊q⌋ else ⌈q⌉

/-- `VisitorCounter.__init__` (counter.py lines 6-32).  The `direction`
argument is ignored: the field is hard-coded to `"left"` (line 17).  The
database handle is an external sink and not part of the counting state. -/
def init (line_position : ℚ) (_direction : String) (frame_width : ℚ) : CS :=
  { line_position := (pyInt (line_position * frame_width) : ℚ),
    direction := "left",
    count := 0, total_left := 0, total_right := 0,
    last_positions := [], counted_ids := [] }

/-- One iteration of the `count_visitors` loop (counter.py lines 44-97).
The loop body reads `data['centroid']` and `data.get('state', 'new')`;
the `state` value is assigned but never used afterwards.  The database
write (lines 84-91) goes to the external sink and does not change the
counter or tracker state. -/
def countStep (cs : CS) (ts : TS) (o : Nat × Tracker.ObjView) : CS × TS :=
  let object_id := o.1
  let data := o.2
  if object_id ∈ cs.counted_ids then (cs, ts)
  else
    let cx := data.centroid.1
    let current_position := if cx < cs.line_position then "left" else "right"
    match alookup cs.last_positions object_id with
    | none =>
        let lps := aset cs.last_positions object_id ⟨current_position, false⟩
        ({ cs with last_positions := lps }, ts)
    | some last_data =>
      let last_position := last_data.position
      let already_counted := last_data.counted
      let next :=
        if already_counted = false ∧ object_id ∉ cs.counted_ids
            ∧ last_position = "right" ∧ current_position = "left" then
          let cs1 := { cs with
            count := cs.count + 1,
            total_left := cs.total_left + 1,
            last_positions := aset cs.last_positions object_id ⟨last_position, true⟩,
            counted_ids := sinsert object_id cs.counted_ids }
          (cs1, (Tracker.mark_as_scanned ts object_id).1)
        else (cs, ts)
      let cs2 := next.1
      let lp := (alookup cs2.last_positions object_id).getD ⟨current_position, false⟩
      let lps := aset cs2.last_positions object_id ⟨current_position, lp.counted⟩
      ({ cs2 with last_positions := lps }, next.2)

/-- `VisitorCounter.count_visitors` (lines 34-99): fold of `countStep` over
the tracked-object map.  The returned aggregate count is the final
`count` field (the early return on an empty map coincides with the empty
fold). -/
def count_visitors (cs : CS) (ts : TS)
    (objects : List (Nat × Tracker.ObjView)) : CS × TS :=
  objects.foldl (fun acc o => countStep acc.1 acc.2 o) (cs, ts)

/-- A sequence of `count_visitors` invocations over successive frames. -/
def runFrames (cs : CS) (ts : TS) :
    List (List (Nat × Tracker.ObjView)) → CS × TS
  | [] => (cs, ts)
  | fr :: rest =>
    let r := count_visitors cs ts fr
    runFrames r.1 r.2 rest

/-- The dictionary returned by `VisitorCounter.get_stats`. -/
structure Stats where
  total : Nat
  total_left : Nat
  total_right : Nat
  deriving DecidableEq

/-- `VisitorCounter.get_stats` (lines 101-112). -/
def get_stats (cs : CS) : Stats :=
  { total := cs.count, total_left := cs.total_left, total_right := cs.total_right }

/-- The side classification of an observation relative to the counting
line (counter.py line 54). -/
def sideOfLine (line : ℚ) (o : Nat × Tracker.ObjView) : String :=
  if o.2.centroid.1 < line then "left" else "right"

/-- Per-id potential: the aggregate count plus 1 when `id` is still
uncounted.  Invariant under any `countStep` that processes `id`. -/
def phiFor (id : Nat) (cs : CS) : Nat :=
  cs.count + (if id ∈ cs.counted_ids then 0 else 1)

end VisitorCounter

/-! Concrete states used to evaluate the code on specific inputs.  The
batteries rational operations are `@[irreducible]` by default, which only
hides them from elaborator-side reduction; re-marking them semireducible
lets `decide` evaluate the embedded code on concrete rational inputs
(the kernel certificate is unaffected). -/

/-- Tracker about to re-register a person (person id 7) who was already
counted: ReID enabled, `counted_people = {7}`. -/
def exC1base : TS :=
  { Tracker.init 40 50 10 true with next_object_id := 5, counted_people := [7] }

/-- Re-registration of the counted person as new track 5, centroid
(160, 100) — on the Right side of a line at x = 150. -/
def exC1reg : TS × Nat :=
  Tracker.register exC1base 0 (some fun _ => 7) (160, 100) ⟨140, 60, 180, 140⟩

/-- Counter with the vertical line at x = 150 (0.234375 × 640). -/
def exC1counter : VisitorCounter.CS := VisitorCounter.init (15/64) "left" 640

/-- First counter invocation: track 5 observed on the Right side. -/
def exC1run1 : VisitorCounter.CS × TS :=
  VisitorCounter.count_visitors exC1counter exC1reg.1 (Tracker.get_objects exC1reg.1)

/-- The tracked object moves to centroid (140, 100): Left side. -/
def exC1ts2 : TS :=
  Tracker.update exC1reg.1 1 [⟨120, 60, 160, 140, 9/10⟩] (some fun _ => 7)

/-- Second counter invocation: track 5 now on the Left side. -/
def exC1run2 : VisitorCounter.CS × TS :=
  VisitorCounter.count_visitors exC1run1.1 exC1ts2 (Tracker.get_objects exC1ts2)

/-- Tracker with one scanned live object (track 0, person 7) last seen at
time 0, ReID enabled, `exit_timeout = 10`. -/
def exC2 : TS :=
  { Tracker.init 40 50 10 true with
    next_object_id := 1,
    objects := [(0, (100, 100))],
    disappeared := [(0, 0)],
    positions := [(0, ⟨80, 60, 120, 140⟩)],
    timestamps := [(0, ⟨0, 0⟩)],
    states := [(0, "scanned")],
    entry_times := [(0, 0)],
    person_ids := [(0, 7)] }

/-- Tracker with three live objects and all `disappeared` counters 0;
a single far-away detection triggers the load-shedding eviction. -/
def exC6 : TS :=
  { Tracker.init 40 50 10 false with
    next_object_id := 3,
    objects := [(0, (0, 0)), (1, (300, 0)), (2, (600, 0))],
    disappeared := [(0, 0), (1, 0), (2, 0)],
    positions := [(0, ⟨0, 0, 0, 0⟩), (1, ⟨300, 0, 300, 0⟩), (2, ⟨600, 0, 600, 0⟩)],
    timestamps := [(0, ⟨0, 0⟩), (1, ⟨0, 0⟩), (2, ⟨0, 0⟩)],
    states := [(0, "new"), (1, "new"), (2, "new")] }

/-- A detection whose centroid (1000, 0) is beyond `max_distance` of every
live object of `exC6`. -/
def exC6det : Det := ⟨980, -20, 1020, 20, 9/10⟩

/-- A freshly initialised tracker with no live objects. -/
def exC7 : TS := Tracker.init 40 50 10 false

/-- A degenerate, zero-area detection (x1 = x2, y1 = y2). -/
def exC7det : Det := ⟨5, 5, 5, 5, 9/10⟩

/-- An observation of an object at horizontal position `x` (vertical 100),
as seen by the counter. -/
def wView (x : ℚ) : Tracker.ObjView :=
  { centroid := (x, 100), bbox := ⟨0, 0, 0, 0⟩, tstamps := ⟨0, 0⟩,
    state := "new", entry_time := none, exit_time := none,
    person_id := none, already_counted := false }

/-- A counter that has already counted object id 3 (line at x = 150). -/
def wCs3 : VisitorCounter.CS :=
  { line_position := 150, direction := "left", count := 2, total_left := 2,
    total_right := 0, last_positions := [(3, ⟨"left", true⟩)],
    counted_ids := [3] }

/-- A fresh tracker used as the counter's tracker argument. -/
def wTs3 : TS := Tracker.init 40 50 10 false

/-- Frames in which object 3 oscillates Right, Left, Right, Left across
the line at x = 150. -/
def wFrames3 : List (List (Nat × Tracker.ObjView)) :=
  [[(3, wView 200)], [(3, wView 100)], [(3, wView 200)], [(3, wView 100)]]

/-- A counter whose last recorded side for object 4 is Left. -/
def wCs4 : VisitorCounter.CS :=
  { line_position := 150, direction := "left", count := 0, total_left := 0,
    total_right := 0, last_positions := [(4, ⟨"left", false⟩)],
    counted_ids := [] }

/-- An observation of object 4 on the Right side of the line. -/
def wO4 : Nat × Tracker.ObjView := (4, wView 200)

/-- A tracker with three live objects at (0,0), (10,10), (20,20) and a
generous `max_distance`. -/
def wC5s : TS :=
  { Tracker.init 40 1000 10 false with
    next_object_id := 3,
    objects := [(0, (0, 0)), (1, (10, 10)), (2, (20, 20))],
    disappeared := [(0, 0), (1, 0), (2, 0)],
    positions := [(0, ⟨0, 0, 0, 0⟩), (1, ⟨10, 10, 10, 10⟩),
                  (2, ⟨20, 20, 20, 20⟩)],
    timestamps := [(0, ⟨0, 0⟩), (1, ⟨0, 0⟩), (2, ⟨0, 0⟩)],
    states := [(0, "new"), (1, "new"), (2, "new")] }

/-- Three detections centred at (1,1), (11,11) and (50,50). -/
def wC5dets : List Det :=
  [⟨0, 0, 2, 2, 9/10⟩, ⟨10, 10, 12, 12, 9/10⟩, ⟨49, 49, 51, 51, 9/10⟩]

/-- A tracker with one `"scanned"` live object whose `disappeared` counter
already equals `max_disappeared = 40`. -/
def wC6s : TS :=
  { Tracker.init 40 50 10 false with
    next_object_id := 1,
    objects := [(0, (100, 100))],
    disappeared := [(0, 40)],
    positions := [(0, ⟨80, 60, 120, 140⟩)],
    timestamps := [(0, ⟨0, 0⟩)],
    states := [(0, "scanned")] }

/-- Rank of a lifecycle state, ordering absent < `"new"` < `"scanned"`
< `"exited"`. -/
def rank : Option String → Nat
  | none => 0
  | some st =>
    if st = "new" then 1 else if st = "scanned" then 2
    else if st = "exited" then 3 else 0

/-- Invariants the tracker maintains: every recorded id is below the id
counter, live objects are `"new"` or `"scanned"`, person mappings only
exist with ReID enabled, and states hold only the three lifecycle
values. -/
def WF (s : TS) : Prop :=
  (∀ id, (alookup s.states id).isSome → id < s.next_object_id)
  ∧ (∀ id, (alookup s.objects id).isSome →
      alookup s.states id = some "new" ∨ alookup s.states id = some "scanned")
  ∧ (s.reid_enabled = false → s.person_ids = [])
  ∧ (∀ id v, alookup s.states id = some v →
      v = "new" ∨ v = "scanned" ∨ v = "exited")

/-- Per-id monotonicity of lifecycle states between two tracker states. -/
def Mono (s s' : TS) : Prop :=
  ∀ id, rank (alookup s.states id) ≤ rank (alookup s'.states id)

/-- One public tracker operation, as invoked by the main loop or by the
counter (which calls `mark_as_scanned` from inside `count_visitors`). -/
inductive TStep : TS → TS → Prop where
  | register (s : TS) (now : ℚ) (frame : Option (Nat → Nat))
      (c : ℚ × ℚ) (b : BBox) :
      TStep s (Tracker.register s now frame c b).1
  | deregister (s : TS) (now : ℚ) (id : Nat) :
      TStep s (Tracker.deregister s now id)
  | mark_scanned (s : TS) (id : Nat) :
      TStep s (Tracker.mark_as_scanned s id).1
  | mark_counted (s : TS) (now : ℚ) (id : Nat) :
      TStep s (Tracker.mark_as_counted s now id)
  | exits (s : TS) (now : ℚ) :
      TStep s (Tracker.check_for_exits s now).1
  | upd (s : TS) (now : ℚ) (dets : List Det) (frame : Option (Nat → Nat)) :
      TStep s (Tracker.update s now dets frame)
  | countv (s : TS) (cs : VisitorCounter.CS)
      (objs : List (Nat × Tracker.ObjView)) :
      TStep s (VisitorCounter.count_visitors cs s objs).2

/-- Tracker states reachable from construction via public operations. -/
inductive Reachable : TS → Prop where
  | init (maxd : Nat) (maxdist exitt : ℚ) (reid : Bool) :
      Reachable (Tracker.init maxd maxdist exitt reid)
  | step {s s' : TS} : Reachable s → TStep s s' → Reachable s'

@[simp] theorem alookup_nil (k : Nat) : alookup ([] : List (Nat × α)) k = none := rfl

@[simp] theorem alookup_aset_self (l : List (Nat × α)) (k : Nat) (v : α) :
    alookup (aset l k v) k = some v := by
  induction l with
  | nil => simp [aset, alookup]
  | cons h t ih =>
    by_cases hk : h.1 = k
    · simp [aset, hk, alookup]
    · simp [aset, hk, alookup, ih]

theorem alookup_aset_ne (l : List (Nat × α)) (k k' : Nat) (v : α) (h : k' ≠ k) :
    alookup (aset l k v) k' = alookup l k' := by
  have hk' : k ≠ k' := Ne.symm h
  induction l with
  | nil => simp [aset, alookup, hk']
  | cons hd t ih =>
    by_cases hk : hd.1 = k
    · simp [aset, hk, alookup, hk']
    · simp [aset, hk, alookup, ih]

theorem aerase_cons (hd : Nat × α) (t : List (Nat × α)) (k : Nat) :
    aerase (hd :: t) k = if hd.1 = k then aerase t k else hd :: aerase t k := by
  by_cases hk : hd.1 = k <;> simp [aerase, hk]

@[simp] theorem alookup_aerase_self (l : List (Nat × α)) (k : Nat) :
    alookup (aerase l k) k = none := by
  induction l with
  | nil => rfl
  | cons hd t ih =>
    rw [aerase_cons]
    by_cases hk : hd.1 = k
    · simpa [hk] using ih
    · simpa [alookup, hk] using ih

theorem alookup_aerase_ne (l : List (Nat × α)) (k k' : Nat) (h : k' ≠ k) :
    alookup (aerase l k) k' = alookup l k' := by
  induction l with
  | nil => rfl
  | cons hd t ih =>
    rw [aerase_cons]
    by_cases hk : hd.1 = k
    · have hne : hd.1 ≠ k' := by rw [hk]; exact Ne.symm h
      simp [hk, alookup, hne, ih, Ne.symm h]
    · by_cases hk' : hd.1 = k'
      · simp [hk, alookup, hk', h]
      · simp [hk, alookup, hk', ih]

theorem isSome_alookup_aset (l : List (Nat × α)) (k k' : Nat) (v : α) :
    (alookup (aset l k v) k').isSome ↔ k' = k ∨ (alookup l k').isSome := by
  by_cases h : k' = k
  · subst h; simp
  · rw [alookup_aset_ne l k k' v h]; simp [h]

theorem mem_keys_iff_isSome (l : List (Nat × α)) (k : Nat) :
    k ∈ l.map Prod.fst ↔ (alookup l k).isSome := by
  induction l with
  | nil => simp
  | cons hd t ih =>
    by_cases hk : hd.1 = k
    · simp [alookup, hk]
    · have hk2 : ¬ k = hd.1 := fun hh => hk hh.symm
      simp [alookup, hk, hk2, ih]

theorem perm_insOrd (le : α → α → Bool) (x : α) (l : List α) :
    (insOrd le x l).Perm (x :: l) := by
  induction l with
  | nil => exact List.Perm.refl _
  | cons y ys ih =>
    by_cases h : le x y
    · simp [insOrd, h]
    · simp only [insOrd, h, if_neg]
      exact ((ih.cons y).trans (List.Perm.swap x y ys)).symm.symm

theorem perm_isort (le : α → α → Bool) (l : List α) :
    (isort le l).Perm l := by
  induction l with
  | nil => exact List.Perm.refl _
  | cons x xs ih =>
    exact (perm_insOrd le x (isort le xs)).trans (ih.cons x)

theorem pairwise_insOrd (le : α → α → Bool)
    (htot : ∀ a b, le a b = true ∨ le b a = true)
    (htrans : ∀ a b c, le a b = true → le b c = true → le a c = true)
    (x : α) (l : List α) (hl : l.Pairwise (fun a b => le a b = true)) :
    (insOrd le x l).Pairwise (fun a b => le a b = true) := by
  induction l with
  | nil => simp [insOrd]
  | cons y ys ih =>
    rcases List.pairwise_cons.mp hl with ⟨hy, hys⟩
    by_cases h : le x y
    · rw [insOrd, if_pos h]
      refine List.pairwise_cons.mpr ⟨?_, hl⟩
      intro a ha
      rcases List.mem_cons.mp ha with rfl | ha
      · exact h
      · exact htrans x y a h (hy a ha)
    · have hx : le y x = true := by
        rcases htot x y with h' | h'
        · exact absurd h' (by simpa using h)
        · exact h'
      rw [insOrd, if_neg (by simpa using h)]
      refine List.pairwise_cons.mpr ⟨?_, ih hys⟩
      intro a ha
      have := (perm_insOrd le x ys).mem_iff.mp ha
      rcases List.mem_cons.mp this with rfl | ha'
      · exact hx
      · exact hy a ha'

theorem pairwise_isort (le : α → α → Bool)
    (htot : ∀ a b, le a b = true ∨ le b a = true)
    (htrans : ∀ a b c, le a b = true → le b c = true → le a c = true)
    (l : List α) :
    (isort le l).Pairwise (fun a b => le a b = true) := by
  induction l with
  | nil => simp [isort]
  | cons x xs ih => exact pairwise_insOrd le htot htrans x (isort le xs) ih

section ConcreteEval

set_option allowUnsafeReducibility true

attribute [local semireducible] Rat.add Rat.mul Rat.sub Rat.inv Rat.div Rat.neg

/-- C1: a person (person id 7) already in `counted_people` re-enters as new
track 5; at registration the track is indeed fast-forwarded to `"scanned"`
and reported as `already_counted` — but when it then crosses the line
Right-to-Left (centroid 160 then 140, line at 150), `count_visitors`
increments the aggregate counter again, because the counter never consults
the tracker state or the `already_counted` flag.  This refutes the second
half of the claim on the code while exhibiting the clear suppression
intent of `register`/`mark_as_counted`. -/
theorem c1_reentry_recount_bug :
    alookup exC1reg.1.states 5 = some "scanned"
    ∧ Tracker.is_already_counted exC1reg.1 5 = true
    ∧ (Tracker.get_objects exC1reg.1).map (fun p => (p.1, p.2.already_counted)) = [(5, true)]
    ∧ exC1run1.1.count = 0
    ∧ alookup exC1ts2.objects 5 = some (140, 100)
    ∧ exC1run2.1.count = 1
    ∧ 5 ∈ exC1run2.1.counted_ids := by decide

/-- C2: on `exC2` (one live `"scanned"` object, person id 7, last seen at 0)
`check_for_exits` at time 20 (past the 10-second timeout) transitions the
object to `"exited"`, stamps the exit time, removes it from the live set
and returns its id — but `counted_people` stays empty: the sweep sets the
state to `"exited"` before calling `deregister`, so `deregister`'s
`"scanned"` branch (the only place that adds the person id to the counted
set) is skipped.  This refutes the counted-set clause of the claim. -/
theorem c2_exit_sweep_drops_person :
    (Tracker.check_for_exits exC2 20).2 = [0]
    ∧ alookup (Tracker.check_for_exits exC2 20).1.states 0 = some "exited"
    ∧ alookup (Tracker.check_for_exits exC2 20).1.exit_times 0 = some 20
    ∧ alookup (Tracker.check_for_exits exC2 20).1.objects 0 = none
    ∧ exC2.reid_enabled = true
    ∧ alookup exC2.person_ids 0 = some 7
    ∧ (Tracker.check_for_exits exC2 20).1.counted_people = [] := by decide

/-- C6 counterexample: in `exC6`, object 0 is live with `disappearedFrames
= 0` and `maxDisappeared = 40`, and is matched by no detection; yet a
single `update` call removes it from the live set (load-shedding evicts
it), so an unmatched live object is removed in a call in which its
incremented `disappearedFrames` (at most 1) does not exceed
`maxDisappeared` — refuting the claim's "exactly when" as stated. -/
theorem c6_loadshed_eviction_counterexample :
    alookup exC6.objects 0 = some (0, 0)
    ∧ alookup exC6.disappeared 0 = some 0
    ∧ exC6.max_disappeared = 40
    ∧ alookup (Tracker.update exC6 0 [exC6det] none).objects 0 = none
    ∧ alookup (Tracker.update exC6 0 [exC6det] none).disappeared 0 = none
    ∧ alookup (Tracker.update exC6 0 [exC6det] none).disappeared 1 = some 1
    ∧ alookup (Tracker.update exC6 0 [exC6det] none).objects 3 = some (1000, 0) := by
  decide

/-- C7 counterexample: a zero-area detection (x1 = x2 = 5, y1 = y2 = 5)
passed to `update` on a fresh tracker is not rejected: a TrackedObject is
created for it and the live set changes, refuting the claim. -/
theorem c7_degenerate_registered_counterexample :
    exC7.objects = []
    ∧ exC7det.x2 ≤ exC7det.x1
    ∧ (Tracker.update exC7 0 [exC7det] none).objects = [(0, (5, 5))]
    ∧ alookup (Tracker.update exC7 0 [exC7det] none).positions 0 = some ⟨5, 5, 5, 5⟩
    ∧ alookup (Tracker.update exC7 0 [exC7det] none).states 0 = some "new" := by
  decide

end ConcreteEval

theorem aset_aset_self (l : List (Nat × α)) (k : Nat) (v v' : α) :
    aset (aset l k v) k v' = aset l k v' := by
  induction l with
  | nil => simp [aset]
  | cons hd t ih =>
    by_cases hk : hd.1 = k
    · simp [aset, hk]
    · simp [aset, hk, ih]

theorem mem_sinsert_self (x : Nat) (l : List Nat) : x ∈ sinsert x l := by
  by_cases h : x ∈ l <;> simp [sinsert, h]

theorem mem_sinsert_of_mem {y : Nat} (x : Nat) {l : List Nat} (h : y ∈ l) :
    y ∈ sinsert x l := by
  by_cases hx : x ∈ l <;> simp [sinsert, hx, h]

namespace VisitorCounter

/-- Closed-form characterization of one `count_visitors` iteration, with
the two consecutive writes to `last_positions[object_id]` collapsed. -/
theorem countStep_eq (cs : CS) (ts : TS) (o : Nat × Tracker.ObjView) :
    countStep cs ts o =
      if o.1 ∈ cs.counted_ids then (cs, ts)
      else
        match alookup cs.last_positions o.1 with
        | none =>
            ({ cs with
                last_positions :=
                  aset cs.last_positions o.1 ⟨sideOfLine cs.line_position o, false⟩ },
             ts)
        | some last_data =>
          if last_data.counted = false ∧ o.1 ∉ cs.counted_ids
              ∧ last_data.position = "right"
              ∧ sideOfLine cs.line_position o = "left" then
            ({ cs with
                count := cs.count + 1,
                total_left := cs.total_left + 1,
                last_positions :=
                  aset cs.last_positions o.1 ⟨sideOfLine cs.line_position o, true⟩,
                counted_ids := sinsert o.1 cs.counted_ids },
             (Tracker.mark_as_scanned ts o.1).1)
          else
            ({ cs with
                last_positions :=
                  aset cs.last_positions o.1
                    ⟨sideOfLine cs.line_position o, last_data.counted⟩ },
             ts) := by
  unfold countStep
  by_cases h1 : o.1 ∈ cs.counted_ids
  · simp [h1]
  · cases hl : alookup cs.last_positions o.1 with
    | none => simp [h1, hl, sideOfLine]
    | some last_data =>
      by_cases hc : last_data.counted = false ∧ last_data.position = "right"
          ∧ o.2.centroid.1 < cs.line_position
      · obtain ⟨hcc, hcp, hcx⟩ := hc
        simp [h1, hl, sideOfLine, hcc, hcp, hcx, aset_aset_self, alookup_aset_self]
      · simp [h1, hl, sideOfLine, hc]

/-- Objects already in `counted_ids` are skipped entirely (line 46-47). -/
theorem countStep_skip (cs : CS) (ts : TS) (o : Nat × Tracker.ObjView)
    (h : o.1 ∈ cs.counted_ids) : countStep cs ts o = (cs, ts) := by
  rw [countStep_eq]; simp [h]

/-- First sighting of an uncounted object: record the side, no event. -/
theorem countStep_eq_first (cs : CS) (ts : TS) (o : Nat × Tracker.ObjView)
    (h1 : o.1 ∉ cs.counted_ids)
    (hl : alookup cs.last_positions o.1 = none) :
    countStep cs ts o =
      ({ cs with
          last_positions :=
            aset cs.last_positions o.1 ⟨sideOfLine cs.line_position o, false⟩ },
       ts) := by
  rw [countStep_eq, if_neg h1, hl]

/-- Subsequent sighting of an uncounted object: fire exactly on an
uncounted Right-to-Left side change, else only refresh the side. -/
theorem countStep_eq_some (cs : CS) (ts : TS) (o : Nat × Tracker.ObjView)
    (last_data : LastPos) (h1 : o.1 ∉ cs.counted_ids)
    (hl : alookup cs.last_positions o.1 = some last_data) :
    countStep cs ts o =
      if last_data.counted = false ∧ o.1 ∉ cs.counted_ids
          ∧ last_data.position = "right"
          ∧ sideOfLine cs.line_position o = "left" then
        ({ cs with
            count := cs.count + 1,
            total_left := cs.total_left + 1,
            last_positions :=
              aset cs.last_positions o.1 ⟨sideOfLine cs.line_position o, true⟩,
            counted_ids := sinsert o.1 cs.counted_ids },
         (Tracker.mark_as_scanned ts o.1).1)
      else
        ({ cs with
            last_positions :=
              aset cs.last_positions o.1
                ⟨sideOfLine cs.line_position o, last_data.counted⟩ },
         ts) := by
  rw [countStep_eq, if_neg h1, hl]

/-- One step on an observation of `id` preserves the potential `phiFor id`,
never decreases the count, and never removes ids from `counted_ids`. -/
theorem countStep_phi (id : Nat) (cs : CS) (ts : TS) (o : Nat × Tracker.ObjView)
    (h : o.1 = id) :
    phiFor id (countStep cs ts o).1 = phiFor id cs
    ∧ cs.count ≤ (countStep cs ts o).1.count
    ∧ (∀ x ∈ cs.counted_ids, x ∈ (countStep cs ts o).1.counted_ids) := by
  subst h
  rw [countStep_eq]
  by_cases h1 : o.1 ∈ cs.counted_ids
  · simp [h1]
  · cases hl : alookup cs.last_positions o.1 with
    | none => simp [phiFor, h1]
    | some last_data =>
      by_cases hc : last_data.counted = false ∧ o.1 ∉ cs.counted_ids
          ∧ last_data.position = "right" ∧ sideOfLine cs.line_position o = "left"
      · simp only [h1, if_neg, not_false_iff, hc, if_pos]
        refine ⟨?_, by simp, fun x hx => mem_sinsert_of_mem o.1 hx⟩
        simp [phiFor, h1, mem_sinsert_self]
      · have hc3 : ¬(last_data.counted = false ∧ last_data.position = "right"
            ∧ sideOfLine cs.line_position o = "left") :=
          fun h => hc ⟨h.1, h1, h.2.1, h.2.2⟩
        simp [hc3, phiFor, h1]

/-- `count_visitors` version of `countStep_phi`, for frames that contain
only observations of `id`. -/
theorem count_visitors_phi (id : Nat) (objects : List (Nat × Tracker.ObjView)) :
    ∀ cs ts, (∀ o ∈ objects, o.1 = id) →
      phiFor id (count_visitors cs ts objects).1 = phiFor id cs
      ∧ cs.count ≤ (count_visitors cs ts objects).1.count
      ∧ (∀ x ∈ cs.counted_ids, x ∈ (count_visitors cs ts objects).1.counted_ids) := by
  induction objects with
  | nil => intro cs ts _; simp [count_visitors]
  | cons o rest ih =>
    intro cs ts h
    have ho : o.1 = id := h o (List.mem_cons_self o rest)
    have hrest : ∀ o' ∈ rest, o'.1 = id := fun o' h' => h o' (List.mem_cons_of_mem o h')
    have hstep := countStep_phi id cs ts o ho
    have hfold := ih (countStep cs ts o).1 (countStep cs ts o).2 hrest
    have hunfold : count_visitors cs ts (o :: rest)
        = count_visitors (countStep cs ts o).1 (countStep cs ts o).2 rest := by
      simp [count_visitors]
    rw [hunfold]
    exact ⟨by rw [hfold.1, hstep.1], le_trans hstep.2.1 hfold.2.1,
      fun x hx => hfold.2.2 x (hstep.2.2 x hx)⟩

/-- `runFrames` version of `countStep_phi`. -/
theorem runFrames_phi (id : Nat) (frames : List (List (Nat × Tracker.ObjView))) :
    ∀ cs ts, (∀ fr ∈ frames, ∀ o ∈ fr, o.1 = id) →
      phiFor id (runFrames cs ts frames).1 = phiFor id cs
      ∧ cs.count ≤ (runFrames cs ts frames).1.count
      ∧ (∀ x ∈ cs.counted_ids, x ∈ (runFrames cs ts frames).1.counted_ids) := by
  induction frames with
  | nil => intro cs ts _; exact ⟨rfl, le_refl _, fun x hx => hx⟩
  | cons fr rest ih =>
    intro cs ts h
    have hfr : ∀ o ∈ fr, o.1 = id := h fr (List.mem_cons_self fr rest)
    have hrest : ∀ fr' ∈ rest, ∀ o ∈ fr', o.1 = id :=
      fun fr' h' => h fr' (List.mem_cons_of_mem fr h')
    have hstep := count_visitors_phi id fr cs ts hfr
    have hfold := ih (count_visitors cs ts fr).1 (count_visitors cs ts fr).2 hrest
    have hunfold : runFrames cs ts (fr :: rest)
        = runFrames (count_visitors cs ts fr).1 (count_visitors cs ts fr).2 rest := rfl
    rw [hunfold]
    exact ⟨by rw [hfold.1, hstep.1], le_trans hstep.2.1 hfold.2.1,
      fun x hx => hfold.2.2 x (hstep.2.2 x hx)⟩

end VisitorCounter

/-- C3: once an object id is in the counter's counted-ids set, no later
`count_visitors` invocation increments the aggregate counter for it (over
frames consisting of that object's observations the count is unchanged),
and in total the counter increments at most once per object id however
the object oscillates between the sides. -/
theorem c3_counted_id_never_recounted
    (cs : VisitorCounter.CS) (ts : TS)
    (frames : List (List (Nat × Tracker.ObjView))) (id : Nat)
    (hall : ∀ fr ∈ frames, ∀ o ∈ fr, o.1 = id) :
    (id ∈ cs.counted_ids →
      (VisitorCounter.runFrames cs ts frames).1.count = cs.count)
    ∧ (VisitorCounter.runFrames cs ts frames).1.count ≤ cs.count + 1 := by
  obtain ⟨hphi, hmono, hsub⟩ := VisitorCounter.runFrames_phi id frames cs ts hall
  constructor
  · intro hm
    have hm' : id ∈ (VisitorCounter.runFrames cs ts frames).1.counted_ids := hsub id hm
    simp only [VisitorCounter.phiFor, hm, hm', if_pos] at hphi
    omega
  · by_cases hm : id ∈ cs.counted_ids
    · have hm' := hsub id hm
      simp only [VisitorCounter.phiFor, hm, hm', if_pos] at hphi
      omega
    · by_cases hm' : id ∈ (VisitorCounter.runFrames cs ts frames).1.counted_ids
      · simp only [VisitorCounter.phiFor, hm, hm', if_pos, if_neg, not_false_iff] at hphi
        omega
      · simp only [VisitorCounter.phiFor, hm, hm', if_neg, not_false_iff] at hphi
        omega

namespace VisitorCounter

/-- While an observation of `id` keeps to the side already recorded for
`id` (or `id` is unrecorded), the step does not fire and the recorded
side stays that side. -/
theorem countStep_same_side (id : Nat) (sd : String) (cs : CS) (ts : TS)
    (o : Nat × Tracker.ObjView) (ho : o.1 = id)
    (hs : sideOfLine cs.line_position o = sd)
    (hrec : alookup cs.last_positions id = none
      ∨ ∃ b, alookup cs.last_positions id = some ⟨sd, b⟩) :
    (countStep cs ts o).1.count = cs.count
    ∧ (countStep cs ts o).1.line_position = cs.line_position
    ∧ (alookup (countStep cs ts o).1.last_positions id = none
       ∨ ∃ b, alookup (countStep cs ts o).1.last_positions id = some ⟨sd, b⟩) := by
  subst ho
  by_cases h1 : o.1 ∈ cs.counted_ids
  · rw [countStep_skip cs ts o h1]
    exact ⟨rfl, rfl, hrec⟩
  · cases hl : alookup cs.last_positions o.1 with
    | none =>
      rw [countStep_eq_first cs ts o h1 hl]
      refine ⟨rfl, rfl, Or.inr ⟨false, ?_⟩⟩
      simp [alookup_aset_self, hs]
    | some last_data =>
      rcases hrec with hnone | ⟨b, hsome⟩
      · rw [hl] at hnone; cases hnone
      · rw [hl] at hsome
        have hld : last_data = ⟨sd, b⟩ := Option.some.inj hsome
        have hpos : last_data.position = sd := by rw [hld]
        have hnof : ¬(last_data.counted = false ∧ o.1 ∉ cs.counted_ids
            ∧ last_data.position = "right"
            ∧ sideOfLine cs.line_position o = "left") := by
          rintro ⟨-, -, hpr, hsl⟩
          rw [hpos] at hpr
          rw [hpr] at hs
          rw [hs] at hsl
          exact absurd hsl (by decide)
        rw [countStep_eq_some cs ts o last_data h1 hl, if_neg hnof]
        refine ⟨rfl, rfl, Or.inr ⟨last_data.counted, ?_⟩⟩
        simp [alookup_aset_self, hs]

/-- `count_visitors` version of `countStep_same_side`. -/
theorem count_visitors_same_side (id : Nat) (sd : String)
    (objects : List (Nat × Tracker.ObjView)) :
    ∀ cs ts, (∀ o ∈ objects, o.1 = id ∧ sideOfLine cs.line_position o = sd) →
      (alookup cs.last_positions id = none
        ∨ ∃ b, alookup cs.last_positions id = some ⟨sd, b⟩) →
      (count_visitors cs ts objects).1.count = cs.count
      ∧ (count_visitors cs ts objects).1.line_position = cs.line_position
      ∧ (alookup (count_visitors cs ts objects).1.last_positions id = none
         ∨ ∃ b, alookup (count_visitors cs ts objects).1.last_positions id
                  = some ⟨sd, b⟩) := by
  induction objects with
  | nil => intro cs ts _ hrec; exact ⟨rfl, rfl, hrec⟩
  | cons o rest ih =>
    intro cs ts h hrec
    obtain ⟨ho, hside⟩ := h o (List.mem_cons_self o rest)
    have hstep := countStep_same_side id sd cs ts o ho hside hrec
    have hline := hstep.2.1
    have hrest : ∀ o' ∈ rest,
        o'.1 = id ∧ sideOfLine (countStep cs ts o).1.line_position o' = sd := by
      intro o' h'
      obtain ⟨ha, hb⟩ := h o' (List.mem_cons_of_mem o h')
      exact ⟨ha, by rw [hline]; exact hb⟩
    have hfold := ih (countStep cs ts o).1 (countStep cs ts o).2 hrest hstep.2.2
    have hunfold : count_visitors cs ts (o :: rest)
        = count_visitors (countStep cs ts o).1 (countStep cs ts o).2 rest := by
      simp [count_visitors]
    rw [hunfold]
    exact ⟨by rw [hfold.1, hstep.1], by rw [hfold.2.1, hline], hfold.2.2⟩

/-- `runFrames` version of `countStep_same_side`. -/
theorem runFrames_same_side (id : Nat) (sd : String)
    (frames : List (List (Nat × Tracker.ObjView))) :
    ∀ cs ts, (∀ fr ∈ frames, ∀ o ∈ fr, o.1 = id
        ∧ sideOfLine cs.line_position o = sd) →
      (alookup cs.last_positions id = none
        ∨ ∃ b, alookup cs.last_positions id = some ⟨sd, b⟩) →
      (runFrames cs ts frames).1.count = cs.count
      ∧ (runFrames cs ts frames).1.line_position = cs.line_position
      ∧ (alookup (runFrames cs ts frames).1.last_positions id = none
         ∨ ∃ b, alookup (runFrames cs ts frames).1.last_positions id
                  = some ⟨sd, b⟩) := by
  induction frames with
  | nil => intro cs ts _ hrec; exact ⟨rfl, rfl, hrec⟩
  | cons fr rest ih =>
    intro cs ts h hrec
    have hfr := h fr (List.mem_cons_self fr rest)
    have hstep := count_visitors_same_side id sd fr cs ts hfr hrec
    have hline := hstep.2.1
    have hrest : ∀ fr' ∈ rest, ∀ o ∈ fr',
        o.1 = id ∧ sideOfLine (count_visitors cs ts fr).1.line_position o = sd := by
      intro fr' h' o hmem
      obtain ⟨ha, hb⟩ := h fr' (List.mem_cons_of_mem fr h') o hmem
      exact ⟨ha, by rw [hline]; exact hb⟩
    have hfold := ih (count_visitors cs ts fr).1 (count_visitors cs ts fr).2
      hrest hstep.2.2
    have hunfold : runFrames cs ts (fr :: rest)
        = runFrames (count_visitors cs ts fr).1 (count_visitors cs ts fr).2 rest := rfl
    rw [hunfold]
    exact ⟨by rw [hfold.1, hstep.1], by rw [hfold.2.1, hline], hfold.2.2⟩

end VisitorCounter

/-- C4: (i) an observation whose recorded side is Left and whose current
side is Right never increments the counter; (ii) whenever an iteration of
`count_visitors` changes the count, the object's previously recorded side
was Right and its current side is Left (and it was uncounted), and the
change is exactly +1; (iii) an object that stays on one side `sd` for its
entire lifetime (never yet recorded, every observation classified `sd`)
never increments the counter under any sequence of invocations. -/
theorem c4_directional_exclusivity :
    (∀ (cs : VisitorCounter.CS) (ts : TS) (o : Nat × Tracker.ObjView)
        (lp : VisitorCounter.LastPos),
        alookup cs.last_positions o.1 = some lp → lp.position = "left" →
        VisitorCounter.sideOfLine cs.line_position o = "right" →
        (VisitorCounter.countStep cs ts o).1.count = cs.count)
    ∧ (∀ (cs : VisitorCounter.CS) (ts : TS) (o : Nat × Tracker.ObjView),
        (VisitorCounter.countStep cs ts o).1.count ≠ cs.count →
        ∃ lp, alookup cs.last_positions o.1 = some lp ∧ lp.position = "right"
          ∧ VisitorCounter.sideOfLine cs.line_position o = "left"
          ∧ lp.counted = false ∧ o.1 ∉ cs.counted_ids
          ∧ (VisitorCounter.countStep cs ts o).1.count = cs.count + 1)
    ∧ (∀ (cs : VisitorCounter.CS) (ts : TS)
        (frames : List (List (Nat × Tracker.ObjView))) (id : Nat) (sd : String),
        alookup cs.last_positions id = none →
        (∀ fr ∈ frames, ∀ o ∈ fr, o.1 = id
          ∧ VisitorCounter.sideOfLine cs.line_position o = sd) →
        (VisitorCounter.runFrames cs ts frames).1.count = cs.count) := by
  refine ⟨?_, ?_, ?_⟩
  · intro cs ts o lp hl hpos hside
    by_cases h1 : o.1 ∈ cs.counted_ids
    · rw [VisitorCounter.countStep_skip cs ts o h1]
    · have hnof : ¬(lp.counted = false ∧ o.1 ∉ cs.counted_ids
          ∧ lp.position = "right"
          ∧ VisitorCounter.sideOfLine cs.line_position o = "left") := by
        rintro ⟨-, -, hpr, -⟩
        rw [hpos] at hpr
        exact absurd hpr (by decide)
      rw [VisitorCounter.countStep_eq_some cs ts o lp h1 hl, if_neg hnof]
  · intro cs ts o hneq
    by_cases h1 : o.1 ∈ cs.counted_ids
    · rw [VisitorCounter.countStep_skip cs ts o h1] at hneq
      exact absurd rfl hneq
    · cases hl : alookup cs.last_positions o.1 with
      | none =>
        rw [VisitorCounter.countStep_eq_first cs ts o h1 hl] at hneq
        exact absurd rfl hneq
      | some last_data =>
        rw [VisitorCounter.countStep_eq_some cs ts o last_data h1 hl] at hneq
        by_cases hc : last_data.counted = false ∧ o.1 ∉ cs.counted_ids
            ∧ last_data.position = "right"
            ∧ VisitorCounter.sideOfLine cs.line_position o = "left"
        · refine ⟨last_data, rfl, hc.2.2.1, hc.2.2.2, hc.1, hc.2.1, ?_⟩
          rw [VisitorCounter.countStep_eq_some cs ts o last_data h1 hl, if_pos hc]
        · rw [if_neg hc] at hneq; exact absurd rfl hneq
  · intro cs ts frames id sd hnone hall
    exact (VisitorCounter.runFrames_same_side id sd frames cs ts hall
      (Or.inl hnone)).1

namespace VisitorCounter

/-- One step either leaves `count` and `total_left` unchanged or bumps
both by one, and never touches `total_right`. -/
theorem countStep_stats (cs : CS) (ts : TS) (o : Nat × Tracker.ObjView) :
    ((countStep cs ts o).1.count = cs.count
       ∧ (countStep cs ts o).1.total_left = cs.total_left
     ∨ (countStep cs ts o).1.count = cs.count + 1
       ∧ (countStep cs ts o).1.total_left = cs.total_left + 1)
    ∧ (countStep cs ts o).1.total_right = cs.total_right := by
  by_cases h1 : o.1 ∈ cs.counted_ids
  · rw [countStep_skip cs ts o h1]; exact ⟨Or.inl ⟨rfl, rfl⟩, rfl⟩
  · cases hl : alookup cs.last_positions o.1 with
    | none =>
      rw [countStep_eq_first cs ts o h1 hl]
      exact ⟨Or.inl ⟨rfl, rfl⟩, rfl⟩
    | some last_data =>
      rw [countStep_eq_some cs ts o last_data h1 hl]
      by_cases hc : last_data.counted = false ∧ o.1 ∉ cs.counted_ids
          ∧ last_data.position = "right"
          ∧ sideOfLine cs.line_position o = "left"
      · rw [if_pos hc]; exact ⟨Or.inr ⟨rfl, rfl⟩, rfl⟩
      · rw [if_neg hc]; exact ⟨Or.inl ⟨rfl, rfl⟩, rfl⟩

/-- The invariant `count = total_left` and the constancy of `total_right`
are preserved by any sequence of `count_visitors` invocations. -/
theorem runFrames_stats (frames : List (List (Nat × Tracker.ObjView))) :
    ∀ cs ts, cs.count = cs.total_left →
      (runFrames cs ts frames).1.count = (runFrames cs ts frames).1.total_left
      ∧ (runFrames cs ts frames).1.total_right = cs.total_right := by
  have hsingle : ∀ (objects : List (Nat × Tracker.ObjView)), ∀ cs ts,
      cs.count = cs.total_left →
      (count_visitors cs ts objects).1.count
        = (count_visitors cs ts objects).1.total_left
      ∧ (count_visitors cs ts objects).1.total_right = cs.total_right := by
    intro objects
    induction objects with
    | nil => intro cs ts h; exact ⟨h, rfl⟩
    | cons o rest ih =>
      intro cs ts h
      have hstep := countStep_stats cs ts o
      have hinv : (countStep cs ts o).1.count = (countStep cs ts o).1.total_left := by
        rcases hstep.1 with ⟨ha, hb⟩ | ⟨ha, hb⟩ <;> rw [ha, hb, h]
      have hfold := ih (countStep cs ts o).1 (countStep cs ts o).2 hinv
      have hunfold : count_visitors cs ts (o :: rest)
          = count_visitors (countStep cs ts o).1 (countStep cs ts o).2 rest := by
        simp [count_visitors]
      rw [hunfold]
      exact ⟨hfold.1, by rw [hfold.2, hstep.2]⟩
  induction frames with
  | nil => intro cs ts h; exact ⟨h, rfl⟩
  | cons fr rest ih =>
    intro cs ts h
    have hstep := hsingle fr cs ts h
    have hfold := ih (count_visitors cs ts fr).1 (count_visitors cs ts fr).2 hstep.1
    have hunfold : runFrames cs ts (fr :: rest)
        = runFrames (count_visitors cs ts fr).1 (count_visitors cs ts fr).2 rest := rfl
    rw [hunfold]
    exact ⟨hfold.1, by rw [hfold.2, hstep.2]⟩

end VisitorCounter

/-- C10: starting from construction, after any sequence of
`count_visitors` invocations the statistics satisfy `total = total_left`
and `total_right = 0`, and the reported statistics are independent of the
`direction` argument supplied at construction (the constructor hard-codes
the counted direction). -/
theorem c10_stats_direction_independent (lp fw : ℚ) (d d' : String) (ts : TS)
    (frames : List (List (Nat × Tracker.ObjView))) :
    VisitorCounter.get_stats
        (VisitorCounter.runFrames (VisitorCounter.init lp d fw) ts frames).1
      = VisitorCounter.get_stats
          (VisitorCounter.runFrames (VisitorCounter.init lp d' fw) ts frames).1
    ∧ (VisitorCounter.get_stats
        (VisitorCounter.runFrames (VisitorCounter.init lp d fw) ts frames).1).total
      = (VisitorCounter.get_stats
          (VisitorCounter.runFrames (VisitorCounter.init lp d fw) ts frames).1).total_left
    ∧ (VisitorCounter.get_stats
        (VisitorCounter.runFrames (VisitorCounter.init lp d fw) ts frames).1).total_right
      = 0 := by
  have h := VisitorCounter.runFrames_stats frames (VisitorCounter.init lp d fw) ts rfl
  exact ⟨rfl, h.1, h.2⟩

namespace Tracker

/-- `deregister` on an object that is not `"scanned"`: only the removal
from the live maps happens. -/
theorem deregister_eq_of_not_scanned (s : TS) (now : ℚ) (id : Nat)
    (h : ¬ alookup s.states id = some "scanned") :
    Tracker.deregister s now id =
      { s with objects := aerase s.objects id,
               disappeared := aerase s.disappeared id,
               positions := aerase s.positions id } := by
  unfold Tracker.deregister
  rw [if_neg h]

/-- `deregister` on a `"scanned"` object with no usable person mapping:
exit transition plus removal, the counted set untouched. -/
theorem deregister_eq_of_scanned_none (s : TS) (now : ℚ) (id : Nat)
    (h : alookup s.states id = some "scanned")
    (hp : s.reid_enabled = false ∨ alookup s.person_ids id = none) :
    Tracker.deregister s now id =
      { s with states := aset s.states id "exited",
               exit_times := aset s.exit_times id now,
               objects := aerase s.objects id,
               disappeared := aerase s.disappeared id,
               positions := aerase s.positions id } := by
  unfold Tracker.deregister
  rw [if_pos h]
  rcases hp with hp | hp
  · simp [hp]
  · by_cases hr : s.reid_enabled
    · simp [hr, hp]
    · simp [hr]

/-- `deregister` on a `"scanned"` object with ReID on and a mapped person:
exit transition, removal, and the person id joins the counted set. -/
theorem deregister_eq_of_scanned_some (s : TS) (now : ℚ) (id pid : Nat)
    (h : alookup s.states id = some "scanned")
    (hr : s.reid_enabled = true)
    (hp : alookup s.person_ids id = some pid) :
    Tracker.deregister s now id =
      { s with states := aset s.states id "exited",
               exit_times := aset s.exit_times id now,
               counted_people := sinsert pid s.counted_people,
               objects := aerase s.objects id,
               disappeared := aerase s.disappeared id,
               positions := aerase s.positions id } := by
  unfold Tracker.deregister
  rw [if_pos h]
  simp [hr, hp]

end Tracker

/-- C9: for a live object, `deregister` removes it from the three live
maps regardless of its state; exactly when the state at the moment of the
call is `"scanned"` it additionally transitions the state to `"exited"`,
stamps the exit time, and adds the mapped person id (if any — states with
a mapping only arise with ReID enabled) to the counted-persons set; in
any other state (in particular `"new"`) the state, exit time and counted
set are all untouched. -/
theorem c9_deregister_contract (s : TS) (now : ℚ) (id : Nat) (c : ℚ × ℚ)
    (st : String)
    (hlive : alookup s.objects id = some c)
    (hst : alookup s.states id = some st)
    (hreid : s.reid_enabled = false → s.person_ids = []) :
    alookup (Tracker.deregister s now id).objects id = none
    ∧ alookup (Tracker.deregister s now id).disappeared id = none
    ∧ alookup (Tracker.deregister s now id).positions id = none
    ∧ (st = "scanned" →
        alookup (Tracker.deregister s now id).states id = some "exited"
        ∧ alookup (Tracker.deregister s now id).exit_times id = some now
        ∧ ∀ pid, alookup s.person_ids id = some pid →
            pid ∈ (Tracker.deregister s now id).counted_people)
    ∧ (st ≠ "scanned" →
        alookup (Tracker.deregister s now id).states id = alookup s.states id
        ∧ alookup (Tracker.deregister s now id).exit_times id
            = alookup s.exit_times id
        ∧ (Tracker.deregister s now id).counted_people = s.counted_people) := by
  by_cases hsc : alookup s.states id = some "scanned"
  · have hst' : st = "scanned" := by
      rw [hst] at hsc; exact Option.some.inj hsc
    cases hp : alookup s.person_ids id with
    | none =>
      rw [Tracker.deregister_eq_of_scanned_none s now id hsc (Or.inr hp)]
      refine ⟨alookup_aerase_self _ _, alookup_aerase_self _ _,
        alookup_aerase_self _ _, ?_, ?_⟩
      · intro _
        refine ⟨alookup_aset_self _ _ _, alookup_aset_self _ _ _, ?_⟩
        intro pid hpid
        cases hpid
      · intro hne; exact absurd hst' hne
    | some pid =>
      have hr : s.reid_enabled = true := by
        cases hb : s.reid_enabled with
        | true => rfl
        | false =>
          have hemp := hreid hb
          rw [hemp] at hp; cases hp
      rw [Tracker.deregister_eq_of_scanned_some s now id pid hsc hr hp]
      refine ⟨alookup_aerase_self _ _, alookup_aerase_self _ _,
        alookup_aerase_self _ _, ?_, ?_⟩
      · intro _
        refine ⟨alookup_aset_self _ _ _, alookup_aset_self _ _ _, ?_⟩
        intro pid' hpid
        rw [← Option.some.inj hpid]
        exact mem_sinsert_self pid s.counted_people
      · intro hne; exact absurd hst' hne
  · have hstne : st ≠ "scanned" := by
      intro hh; exact hsc (by rw [hst, hh])
    rw [Tracker.deregister_eq_of_not_scanned s now id hsc]
    exact ⟨alookup_aerase_self _ _, alookup_aerase_self _ _,
      alookup_aerase_self _ _,
      fun hh => absurd hh hstne,
      fun _ => ⟨rfl, rfl, rfl⟩⟩

namespace Tracker

/-- `register` called without a frame: the ReID branch is a no-op. -/
theorem register_frame_none (s : TS) (now : ℚ) (c : ℚ × ℚ) (b : BBox) :
    Tracker.register s now none c b =
      ({ s with objects := aset s.objects s.next_object_id c,
                positions := aset s.positions s.next_object_id b,
                disappeared := aset s.disappeared s.next_object_id 0,
                timestamps := aset s.timestamps s.next_object_id ⟨now, now⟩,
                states := aset s.states s.next_object_id "new",
                next_object_id := s.next_object_id + 1 },
       s.next_object_id) := by
  unfold Tracker.register
  by_cases hr : s.reid_enabled <;> simp [hr]

/-- `update` on an empty live set with one (arbitrary, possibly
degenerate) detection reduces to a single registration. -/
theorem update_empty_single (s : TS) (now : ℚ) (d : Det)
    (hempty : s.objects = []) :
    Tracker.update s now [d] none
      = (Tracker.register s now none (Tracker.centroidOf d) (Tracker.bboxOf d)).1 := by
  have hload : Tracker.loadshed s now 1 = s := by
    unfold Tracker.loadshed
    rw [if_neg]
    rw [hempty]
    simp
  unfold Tracker.update
  simp only [List.length_singleton, hload]
  rw [if_neg (by decide : ¬ (1 = 0))]
  rw [if_pos (by rw [hempty]; rfl)]
  unfold Tracker.registerAll
  simp [List.foldl]

end Tracker

/-- C7 (amended): a malformed detection with a degenerate bounding box is
NOT rejected at the registration/update boundary — `update` creates a
TrackedObject for it exactly as for a well-formed detection: the live set
gains the object with the degenerate bbox stored and state `"new"`. -/
theorem c7_degenerate_not_rejected_amended (s : TS) (now : ℚ) (d : Det)
    (hempty : s.objects = [])
    (hdeg : d.x2 ≤ d.x1 ∨ d.y2 ≤ d.y1) :
    (Tracker.update s now [d] none).objects
      = [(s.next_object_id, Tracker.centroidOf d)]
    ∧ alookup (Tracker.update s now [d] none).positions s.next_object_id
      = some (Tracker.bboxOf d)
    ∧ alookup (Tracker.update s now [d] none).states s.next_object_id
      = some "new" := by
  rw [Tracker.update_empty_single s now d hempty,
    Tracker.register_frame_none s now (Tracker.centroidOf d) (Tracker.bboxOf d)]
  refine ⟨?_, alookup_aset_self _ _ _, alookup_aset_self _ _ _⟩
  rw [hempty]
  rfl

namespace Tracker

/-- `deregister` never changes the configuration fields, the id counter,
`timestamps`, `entry_times` or `person_ids`. -/
theorem deregister_config (s : TS) (now : ℚ) (id : Nat) :
    (Tracker.deregister s now id).next_object_id = s.next_object_id
    ∧ (Tracker.deregister s now id).max_disappeared = s.max_disappeared
    ∧ (Tracker.deregister s now id).max_distance = s.max_distance
    ∧ (Tracker.deregister s now id).exit_timeout = s.exit_timeout
    ∧ (Tracker.deregister s now id).reid_enabled = s.reid_enabled
    ∧ (Tracker.deregister s now id).timestamps = s.timestamps
    ∧ (Tracker.deregister s now id).entry_times = s.entry_times
    ∧ (Tracker.deregister s now id).person_ids = s.person_ids := by
  by_cases h : alookup s.states id = some "scanned"
  · by_cases hr : s.reid_enabled
    · cases hp : alookup s.person_ids id with
      | some pid =>
        rw [Tracker.deregister_eq_of_scanned_some s now id pid h hr hp]
        exact ⟨rfl, rfl, rfl, rfl, rfl, rfl, rfl, rfl⟩
      | none =>
        rw [Tracker.deregister_eq_of_scanned_none s now id h (Or.inr hp)]
        exact ⟨rfl, rfl, rfl, rfl, rfl, rfl, rfl, rfl⟩
    · rw [Tracker.deregister_eq_of_scanned_none s now id h
        (Or.inl (by simpa using hr))]
      exact ⟨rfl, rfl, rfl, rfl, rfl, rfl, rfl, rfl⟩
  · rw [Tracker.deregister_eq_of_not_scanned s now id h]
    exact ⟨rfl, rfl, rfl, rfl, rfl, rfl, rfl, rfl⟩

/-- `deregister k` does not affect the per-object entries of any other id. -/
theorem deregister_untouched (s : TS) (now : ℚ) (k id : Nat) (hne : id ≠ k) :
    alookup (Tracker.deregister s now k).objects id = alookup s.objects id
    ∧ alookup (Tracker.deregister s now k).disappeared id
        = alookup s.disappeared id
    ∧ alookup (Tracker.deregister s now k).positions id
        = alookup s.positions id
    ∧ alookup (Tracker.deregister s now k).states id = alookup s.states id
    ∧ alookup (Tracker.deregister s now k).exit_times id
        = alookup s.exit_times id := by
  by_cases h : alookup s.states k = some "scanned"
  · by_cases hr : s.reid_enabled
    · cases hp : alookup s.person_ids k with
      | some pid =>
        rw [Tracker.deregister_eq_of_scanned_some s now k pid h hr hp]
        exact ⟨alookup_aerase_ne _ _ _ hne, alookup_aerase_ne _ _ _ hne,
          alookup_aerase_ne _ _ _ hne, alookup_aset_ne _ _ _ _ hne,
          alookup_aset_ne _ _ _ _ hne⟩
      | none =>
        rw [Tracker.deregister_eq_of_scanned_none s now k h (Or.inr hp)]
        exact ⟨alookup_aerase_ne _ _ _ hne, alookup_aerase_ne _ _ _ hne,
          alookup_aerase_ne _ _ _ hne, alookup_aset_ne _ _ _ _ hne,
          alookup_aset_ne _ _ _ _ hne⟩
    · rw [Tracker.deregister_eq_of_scanned_none s now k h
        (Or.inl (by simpa using hr))]
      exact ⟨alookup_aerase_ne _ _ _ hne, alookup_aerase_ne _ _ _ hne,
        alookup_aerase_ne _ _ _ hne, alookup_aset_ne _ _ _ _ hne,
        alookup_aset_ne _ _ _ _ hne⟩
  · rw [Tracker.deregister_eq_of_not_scanned s now k h]
    exact ⟨alookup_aerase_ne _ _ _ hne, alookup_aerase_ne _ _ _ hne,
      alookup_aerase_ne _ _ _ hne, rfl, rfl⟩

/-- `deregister` always removes the object from the three live maps. -/
theorem deregister_removes (s : TS) (now : ℚ) (id : Nat) :
    alookup (Tracker.deregister s now id).objects id = none
    ∧ alookup (Tracker.deregister s now id).disappeared id = none
    ∧ alookup (Tracker.deregister s now id).positions id = none := by
  by_cases h : alookup s.states id = some "scanned"
  · by_cases hr : s.reid_enabled
    · cases hp : alookup s.person_ids id with
      | some pid =>
        rw [Tracker.deregister_eq_of_scanned_some s now id pid h hr hp]
        exact ⟨alookup_aerase_self _ _, alookup_aerase_self _ _,
          alookup_aerase_self _ _⟩
      | none =>
        rw [Tracker.deregister_eq_of_scanned_none s now id h (Or.inr hp)]
        exact ⟨alookup_aerase_self _ _, alookup_aerase_self _ _,
          alookup_aerase_self _ _⟩
    · rw [Tracker.deregister_eq_of_scanned_none s now id h
        (Or.inl (by simpa using hr))]
      exact ⟨alookup_aerase_self _ _, alookup_aerase_self _ _,
        alookup_aerase_self _ _⟩
  · rw [Tracker.deregister_eq_of_not_scanned s now id h]
    exact ⟨alookup_aerase_self _ _, alookup_aerase_self _ _,
      alookup_aerase_self _ _⟩

/-- `deregister` on a `"scanned"` object: state becomes `"exited"` and
the exit time is stamped. -/
theorem deregister_scanned_effect (s : TS) (now : ℚ) (id : Nat)
    (h : alookup s.states id = some "scanned") :
    alookup (Tracker.deregister s now id).states id = some "exited"
    ∧ alookup (Tracker.deregister s now id).exit_times id = some now := by
  by_cases hr : s.reid_enabled
  · cases hp : alookup s.person_ids id with
    | some pid =>
      rw [Tracker.deregister_eq_of_scanned_some s now id pid h hr hp]
      exact ⟨alookup_aset_self _ _ _, alookup_aset_self _ _ _⟩
    | none =>
      rw [Tracker.deregister_eq_of_scanned_none s now id h (Or.inr hp)]
      exact ⟨alookup_aset_self _ _ _, alookup_aset_self _ _ _⟩
  · rw [Tracker.deregister_eq_of_scanned_none s now id h
      (Or.inl (by simpa using hr))]
    exact ⟨alookup_aset_self _ _ _, alookup_aset_self _ _ _⟩

/-- Unfolding of `bumpOne` when the `disappeared` entry exists. -/
theorem bumpOne_eq_some (now : ℚ) (s : TS) (id : Nat) (d : Nat)
    (hd : alookup s.disappeared id = some d) :
    Tracker.bumpOne now s id =
      (if d + 1 > s.max_disappeared then
        Tracker.deregister
          { s with disappeared := aset s.disappeared id (d + 1) } now id
      else { s with disappeared := aset s.disappeared id (d + 1) }) := by
  unfold Tracker.bumpOne
  rw [hd]

/-- Effect of `bumpOne` on its own object: the counter is incremented,
and the object is deregistered exactly when the incremented counter
exceeds `max_disappeared`; a `"scanned"` object evicted this way ends
`"exited"` with the exit time stamped. -/
theorem bumpOne_self (now : ℚ) (s : TS) (id : Nat) (c : ℚ × ℚ) (d : Nat)
    (st : String)
    (ho : alookup s.objects id = some c)
    (hd : alookup s.disappeared id = some d)
    (hs : alookup s.states id = some st) :
    alookup (Tracker.bumpOne now s id).disappeared id
      = (if d + 1 > s.max_disappeared then none else some (d + 1))
    ∧ ((alookup (Tracker.bumpOne now s id).objects id = none)
        ↔ d + 1 > s.max_disappeared)
    ∧ (d + 1 > s.max_disappeared → st = "scanned" →
        alookup (Tracker.bumpOne now s id).states id = some "exited"
        ∧ alookup (Tracker.bumpOne now s id).exit_times id = some now) := by
  rw [bumpOne_eq_some now s id d hd]
  by_cases hover : d + 1 > s.max_disappeared
  · rw [if_pos hover, if_pos hover]
    have hrem := Tracker.deregister_removes
      { s with disappeared := aset s.disappeared id (d + 1) } now id
    refine ⟨hrem.2.1, iff_of_true hrem.1 hover, ?_⟩
    intro _ hsc
    have hs1 : alookup ({ s with
        disappeared := aset s.disappeared id (d + 1) } : TS).states id
        = some "scanned" := by rw [← hsc]; exact hs
    exact Tracker.deregister_scanned_effect _ now id hs1
  · rw [if_neg hover, if_neg hover]
    refine ⟨alookup_aset_self _ _ _, ?_, fun hh => absurd hh hover⟩
    apply iff_of_false _ hover
    rw [ho]
    exact fun hh => Option.noConfusion hh

/-- `bumpOne k` does not affect any other id, or the configuration. -/
theorem bumpOne_untouched (now : ℚ) (s : TS) (k id : Nat) (hne : id ≠ k) :
    alookup (Tracker.bumpOne now s k).objects id = alookup s.objects id
    ∧ alookup (Tracker.bumpOne now s k).disappeared id
        = alookup s.disappeared id
    ∧ alookup (Tracker.bumpOne now s k).states id = alookup s.states id
    ∧ alookup (Tracker.bumpOne now s k).exit_times id
        = alookup s.exit_times id := by
  cases hd : alookup s.disappeared k with
  | none =>
    unfold Tracker.bumpOne
    rw [hd]
    exact ⟨rfl, rfl, rfl, rfl⟩
  | some d =>
    rw [bumpOne_eq_some now s k d hd]
    by_cases hover : d + 1 > s.max_disappeared
    · rw [if_pos hover]
      have hunt := Tracker.deregister_untouched
        { s with disappeared := aset s.disappeared k (d + 1) } now k id hne
      refine ⟨hunt.1, ?_, hunt.2.2.2.1, hunt.2.2.2.2⟩
      rw [hunt.2.1]
      exact alookup_aset_ne _ _ _ _ hne
    · rw [if_neg hover]
      exact ⟨rfl, alookup_aset_ne _ _ _ _ hne, rfl, rfl⟩

/-- `bumpOne` preserves the id counter and the configuration fields. -/
theorem bumpOne_config (now : ℚ) (s : TS) (k : Nat) :
    (Tracker.bumpOne now s k).max_disappeared = s.max_disappeared
    ∧ (Tracker.bumpOne now s k).next_object_id = s.next_object_id := by
  cases hd : alookup s.disappeared k with
  | none =>
    unfold Tracker.bumpOne
    rw [hd]
    exact ⟨rfl, rfl⟩
  | some d =>
    rw [bumpOne_eq_some now s k d hd]
    by_cases hover : d + 1 > s.max_disappeared
    · rw [if_pos hover]
      have hcfg := Tracker.deregister_config
        { s with disappeared := aset s.disappeared k (d + 1) } now k
      exact ⟨hcfg.2.1, hcfg.1⟩
    · rw [if_neg hover]
      exact ⟨rfl, rfl⟩

/-- A fold of `bumpOne` over ids not containing `id` leaves `id`'s
entries and the configuration unchanged. -/
theorem bumpMany_untouched (now : ℚ) (ids : List Nat) (id : Nat)
    (hid : id ∉ ids) :
    ∀ s : TS,
      alookup (Tracker.bumpMany now ids s).objects id = alookup s.objects id
      ∧ alookup (Tracker.bumpMany now ids s).disappeared id
          = alookup s.disappeared id
      ∧ alookup (Tracker.bumpMany now ids s).states id = alookup s.states id
      ∧ alookup (Tracker.bumpMany now ids s).exit_times id
          = alookup s.exit_times id
      ∧ (Tracker.bumpMany now ids s).max_disappeared = s.max_disappeared
      ∧ (Tracker.bumpMany now ids s).next_object_id = s.next_object_id := by
  induction ids with
  | nil => intro s; exact ⟨rfl, rfl, rfl, rfl, rfl, rfl⟩
  | cons x rest ih =>
    intro s
    have hx : id ≠ x := fun hh => hid (hh ▸ List.mem_cons_self x rest)
    have hrest : id ∉ rest := fun hh => hid (List.mem_cons_of_mem x hh)
    have hstep := bumpOne_untouched now s x id hx
    have hcfg := bumpOne_config now s x
    have hfold := ih hrest (Tracker.bumpOne now s x)
    have hunfold : Tracker.bumpMany now (x :: rest) s
        = Tracker.bumpMany now rest (Tracker.bumpOne now s x) := rfl
    rw [hunfold]
    exact ⟨hfold.1.trans hstep.1, hfold.2.1.trans hstep.2.1,
      hfold.2.2.1.trans hstep.2.2.1, hfold.2.2.2.1.trans hstep.2.2.2,
      hfold.2.2.2.2.1.trans hcfg.1, hfold.2.2.2.2.2.trans hcfg.2⟩

/-- Effect of a `bumpOne` fold on a specific id occurring once in the
processed list: the id's `disappeared` counter is incremented by exactly
one, the object is removed from the live set exactly when the
incremented counter exceeds `max_disappeared`, and a `"scanned"` object
evicted this way ends `"exited"` with a stamped exit time. -/
theorem bumpMany_effect (now : ℚ) (ids : List Nat) (id : Nat) :
    ∀ (s : TS) (c : ℚ × ℚ) (d : Nat) (st : String),
      id ∈ ids → ids.Nodup →
      alookup s.objects id = some c →
      alookup s.disappeared id = some d →
      alookup s.states id = some st →
      alookup (Tracker.bumpMany now ids s).disappeared id
        = (if d + 1 > s.max_disappeared then none else some (d + 1))
      ∧ ((alookup (Tracker.bumpMany now ids s).objects id = none)
          ↔ d + 1 > s.max_disappeared)
      ∧ (d + 1 > s.max_disappeared → st = "scanned" →
          alookup (Tracker.bumpMany now ids s).states id = some "exited"
          ∧ alookup (Tracker.bumpMany now ids s).exit_times id = some now) := by
  induction ids with
  | nil => intro s c d st hid; cases hid
  | cons x rest ih =>
    intro s c d st hid hnodup ho hd hs
    have hunfold : Tracker.bumpMany now (x :: rest) s
        = Tracker.bumpMany now rest (Tracker.bumpOne now s x) := rfl
    rw [hunfold]
    by_cases hx : id = x
    · subst hx
      have hrest : id ∉ rest := (List.nodup_cons.mp hnodup).1
      have hself := bumpOne_self now s id c d st ho hd hs
      have hunt := bumpMany_untouched now rest id hrest (Tracker.bumpOne now s id)
      refine ⟨hunt.2.1.trans hself.1, ?_, ?_⟩
      · rw [hunt.1]; exact hself.2.1
      · intro hov hsc
        exact ⟨hunt.2.2.1.trans (hself.2.2 hov hsc).1,
          hunt.2.2.2.1.trans (hself.2.2 hov hsc).2⟩
    · have hne : id ≠ x := hx
      have hunt := bumpOne_untouched now s x id hne
      have hcfg := bumpOne_config now s x
      have hid' : id ∈ rest := by
        rcases List.mem_cons.mp hid with h | h
        · exact absurd h hx
        · exact h
      have hih := ih (Tracker.bumpOne now s x) c d st hid'
        (List.nodup_cons.mp hnodup).2
        (hunt.1.trans ho) (hunt.2.1.trans hd) (hunt.2.2.1.trans hs)
      rw [hcfg.1] at hih
      exact hih

/-- A `bumpOne` fold preserves the id counter and `max_disappeared`. -/
theorem bumpMany_config (now : ℚ) (ids : List Nat) :
    ∀ s : TS,
      (Tracker.bumpMany now ids s).max_disappeared = s.max_disappeared
      ∧ (Tracker.bumpMany now ids s).next_object_id = s.next_object_id := by
  induction ids with
  | nil => intro s; exact ⟨rfl, rfl⟩
  | cons x rest ih =>
    intro s
    have hcfg := bumpOne_config now s x
    have hfold := ih (Tracker.bumpOne now s x)
    exact ⟨hfold.1.trans hcfg.1, hfold.2.trans hcfg.2⟩

/-- `applyMatch` never touches `states`, `exit_times`, the id counter or
the configuration. -/
theorem applyMatch_fields (now : ℚ) (object_ids : List Nat)
    (ics : List (ℚ × ℚ)) (bbs : List BBox) (s : TS) (p : Nat × Nat) :
    (Tracker.applyMatch now object_ids ics bbs s p).states = s.states
    ∧ (Tracker.applyMatch now object_ids ics bbs s p).exit_times = s.exit_times
    ∧ (Tracker.applyMatch now object_ids ics bbs s p).max_disappeared
        = s.max_disappeared
    ∧ (Tracker.applyMatch now object_ids ics bbs s p).next_object_id
        = s.next_object_id := by
  unfold Tracker.applyMatch
  dsimp only
  split
  · exact ⟨rfl, rfl, rfl, rfl⟩
  · exact ⟨rfl, rfl, rfl, rfl⟩

/-- `applyMatch` for a pair whose row resolves to a different id leaves
that id's live entries unchanged. -/
theorem applyMatch_untouched (now : ℚ) (object_ids : List Nat)
    (ics : List (ℚ × ℚ)) (bbs : List BBox) (s : TS) (p : Nat × Nat) (id : Nat)
    (hne : id ≠ object_ids.getD p.1 0) :
    alookup (Tracker.applyMatch now object_ids ics bbs s p).objects id
      = alookup s.objects id
    ∧ alookup (Tracker.applyMatch now object_ids ics bbs s p).disappeared id
      = alookup s.disappeared id := by
  unfold Tracker.applyMatch
  dsimp only
  split
  · exact ⟨alookup_aset_ne _ _ _ _ hne, alookup_aset_ne _ _ _ _ hne⟩
  · exact ⟨alookup_aset_ne _ _ _ _ hne, alookup_aset_ne _ _ _ _ hne⟩

/-- A fold of `applyMatch` over pairs whose rows all resolve to ids other
than `id` leaves `id`'s live entries, `states`, `exit_times` and the
configuration unchanged. -/
theorem applyAll_untouched (now : ℚ) (object_ids : List Nat)
    (ics : List (ℚ × ℚ)) (bbs : List BBox) (pairs : List (Nat × Nat))
    (id : Nat) :
    ∀ s : TS, (∀ p ∈ pairs, id ≠ object_ids.getD p.1 0) →
      alookup (pairs.foldl (Tracker.applyMatch now object_ids ics bbs) s).objects id
        = alookup s.objects id
      ∧ alookup
          (pairs.foldl (Tracker.applyMatch now object_ids ics bbs) s).disappeared id
        = alookup s.disappeared id
      ∧ (pairs.foldl (Tracker.applyMatch now object_ids ics bbs) s).states
        = s.states
      ∧ (pairs.foldl (Tracker.applyMatch now object_ids ics bbs) s).exit_times
        = s.exit_times
      ∧ (pairs.foldl (Tracker.applyMatch now object_ids ics bbs) s).max_disappeared
        = s.max_disappeared
      ∧ (pairs.foldl (Tracker.applyMatch now object_ids ics bbs) s).next_object_id
        = s.next_object_id := by
  induction pairs with
  | nil => intro s _; exact ⟨rfl, rfl, rfl, rfl, rfl, rfl⟩
  | cons p rest ih =>
    intro s hall
    have hp := hall p (List.mem_cons_self p rest)
    have hstep1 := applyMatch_untouched now object_ids ics bbs s p id hp
    have hstep2 := applyMatch_fields now object_ids ics bbs s p
    have hfold := ih (Tracker.applyMatch now object_ids ics bbs s p)
      (fun q hq => hall q (List.mem_cons_of_mem p hq))
    exact ⟨hfold.1.trans hstep1.1, hfold.2.1.trans hstep1.2,
      hfold.2.2.1.trans hstep2.1, hfold.2.2.2.1.trans hstep2.2.1,
      hfold.2.2.2.2.1.trans hstep2.2.2.1, hfold.2.2.2.2.2.trans hstep2.2.2.2⟩

/-- `register` with ReID disabled. -/
theorem register_eq_reid_off (s : TS) (now : ℚ) (frame : Option (Nat → Nat))
    (c : ℚ × ℚ) (b : BBox) (hr : s.reid_enabled = false) :
    Tracker.register s now frame c b =
      ({ s with objects := aset s.objects s.next_object_id c,
                positions := aset s.positions s.next_object_id b,
                disappeared := aset s.disappeared s.next_object_id 0,
                timestamps := aset s.timestamps s.next_object_id ⟨now, now⟩,
                states := aset s.states s.next_object_id "new",
                next_object_id := s.next_object_id + 1 },
       s.next_object_id) := by
  unfold Tracker.register
  simp [hr]

/-- `register` with ReID on and a frame, the resolved person not yet
counted. -/
theorem register_eq_reid_new (s : TS) (now : ℚ) (f : Nat → Nat)
    (c : ℚ × ℚ) (b : BBox) (hr : s.reid_enabled = true)
    (hm : f s.next_object_id ∉ s.counted_people) :
    Tracker.register s now (some f) c b =
      ({ s with objects := aset s.objects s.next_object_id c,
                positions := aset s.positions s.next_object_id b,
                disappeared := aset s.disappeared s.next_object_id 0,
                timestamps := aset s.timestamps s.next_object_id ⟨now, now⟩,
                states := aset s.states s.next_object_id "new",
                person_ids :=
                  aset s.person_ids s.next_object_id (f s.next_object_id),
                next_object_id := s.next_object_id + 1 },
       s.next_object_id) := by
  unfold Tracker.register
  simp [hr, hm]

/-- `register` with ReID on and a frame, the resolved person already
counted: the new track is fast-forwarded to `"scanned"`. -/
theorem register_eq_reid_counted (s : TS) (now : ℚ) (f : Nat → Nat)
    (c : ℚ × ℚ) (b : BBox) (hr : s.reid_enabled = true)
    (hm : f s.next_object_id ∈ s.counted_people) :
    Tracker.register s now (some f) c b =
      ({ s with objects := aset s.objects s.next_object_id c,
                positions := aset s.positions s.next_object_id b,
                disappeared := aset s.disappeared s.next_object_id 0,
                timestamps := aset s.timestamps s.next_object_id ⟨now, now⟩,
                states := aset s.states s.next_object_id "scanned",
                entry_times := aset s.entry_times s.next_object_id now,
                person_ids :=
                  aset s.person_ids s.next_object_id (f s.next_object_id),
                next_object_id := s.next_object_id + 1 },
       s.next_object_id) := by
  unfold Tracker.register
  simp only [hr, if_true]
  simp only [hm, if_pos]
  unfold Tracker.mark_as_counted
  simp [alookup_aset_self, aset_aset_self]

/-- `register` leaves every id below the current counter untouched, bumps
the counter by one and keeps the configuration. -/
theorem register_untouched (s : TS) (now : ℚ) (frame : Option (Nat → Nat))
    (c : ℚ × ℚ) (b : BBox) (id : Nat) (hlt : id < s.next_object_id) :
    alookup (Tracker.register s now frame c b).1.objects id
      = alookup s.objects id
    ∧ alookup (Tracker.register s now frame c b).1.disappeared id
      = alookup s.disappeared id
    ∧ alookup (Tracker.register s now frame c b).1.states id
      = alookup s.states id
    ∧ alookup (Tracker.register s now frame c b).1.exit_times id
      = alookup s.exit_times id
    ∧ (Tracker.register s now frame c b).1.next_object_id
      = s.next_object_id + 1
    ∧ (Tracker.register s now frame c b).1.max_disappeared
      = s.max_disappeared := by
  have hne : id ≠ s.next_object_id := Nat.ne_of_lt hlt
  by_cases hr : s.reid_enabled
  · cases frame with
    | none =>
      rw [register_frame_none s now c b]
      exact ⟨alookup_aset_ne _ _ _ _ hne, alookup_aset_ne _ _ _ _ hne,
        alookup_aset_ne _ _ _ _ hne, rfl, rfl, rfl⟩
    | some f =>
      by_cases hm : f s.next_object_id ∈ s.counted_people
      · rw [register_eq_reid_counted s now f c b hr hm]
        exact ⟨alookup_aset_ne _ _ _ _ hne, alookup_aset_ne _ _ _ _ hne,
          alookup_aset_ne _ _ _ _ hne, rfl, rfl, rfl⟩
      · rw [register_eq_reid_new s now f c b hr hm]
        exact ⟨alookup_aset_ne _ _ _ _ hne, alookup_aset_ne _ _ _ _ hne,
          alookup_aset_ne _ _ _ _ hne, rfl, rfl, rfl⟩
  · rw [register_eq_reid_off s now frame c b (by simpa using hr)]
    exact ⟨alookup_aset_ne _ _ _ _ hne, alookup_aset_ne _ _ _ _ hne,
      alookup_aset_ne _ _ _ _ hne, rfl, rfl, rfl⟩

/-- The registration fold over unmatched detection columns leaves every
id below the current counter untouched. -/
theorem registerFold_untouched (now : ℚ) (frame : Option (Nat → Nat))
    (ics : List (ℚ × ℚ)) (ibs : List BBox) (cols : List Nat) (id : Nat) :
    ∀ s : TS, id < s.next_object_id →
      alookup ((cols.foldl (fun acc cc =>
          (Tracker.register acc now frame (ics.getD cc (0, 0))
            (ibs.getD cc default)).1) s)).objects id
        = alookup s.objects id
      ∧ alookup ((cols.foldl (fun acc cc =>
          (Tracker.register acc now frame (ics.getD cc (0, 0))
            (ibs.getD cc default)).1) s)).disappeared id
        = alookup s.disappeared id
      ∧ alookup ((cols.foldl (fun acc cc =>
          (Tracker.register acc now frame (ics.getD cc (0, 0))
            (ibs.getD cc default)).1) s)).states id
        = alookup s.states id
      ∧ alookup ((cols.foldl (fun acc cc =>
          (Tracker.register acc now frame (ics.getD cc (0, 0))
            (ibs.getD cc default)).1) s)).exit_times id
        = alookup s.exit_times id := by
  induction cols with
  | nil => intro s _; exact ⟨rfl, rfl, rfl, rfl⟩
  | cons x rest ih =>
    intro s hlt
    have hstep := register_untouched s now frame (ics.getD x (0, 0))
      (ibs.getD x default) id hlt
    have hlt' : id < ((Tracker.register s now frame (ics.getD x (0, 0))
        (ibs.getD x default)).1).next_object_id := by
      rw [hstep.2.2.2.2.1]
      exact Nat.lt_succ_of_lt hlt
    have hfold := ih ((Tracker.register s now frame (ics.getD x (0, 0))
      (ibs.getD x default)).1) hlt'
    exact ⟨hfold.1.trans hstep.1, hfold.2.1.trans hstep.2.1,
      hfold.2.2.1.trans hstep.2.2.1, hfold.2.2.2.trans hstep.2.2.2.1⟩

/-- Load-shedding never fires without detections. -/
theorem loadshed_zero (s : TS) (now : ℚ) : Tracker.loadshed s now 0 = s := by
  unfold Tracker.loadshed
  rw [if_neg]
  rintro ⟨-, h⟩
  exact absurd h (lt_irrefl 0)

/-- `update` with no detections: every live object's `disappeared`
counter is bumped (lines 166-175). -/
theorem update_eq_empty (s : TS) (now : ℚ) (frame : Option (Nat → Nat)) :
    Tracker.update s now [] frame
      = Tracker.bumpMany now (s.disappeared.map Prod.fst) s := by
  unfold Tracker.update
  simp only [List.length_nil, loadshed_zero, if_true]

/-- `update` with detections and a non-empty (post load-shedding) live
set: the matching stage runs. -/
theorem update_eq_matchStage (s : TS) (now : ℚ) (dets : List Det)
    (frame : Option (Nat → Nat)) (h1 : dets.length ≠ 0)
    (h2 : (Tracker.loadshed s now dets.length).objects.length ≠ 0) :
    Tracker.update s now dets frame
      = Tracker.matchStage (Tracker.loadshed s now dets.length) now dets frame := by
  unfold Tracker.update
  dsimp only
  rw [if_neg h1, if_neg h2]

/-- Every pair produced by the greedy loop has its row among the
processed rows. -/
theorem greedyPairs_fst_mem (cols : Nat → Nat) (far : Nat → Bool) :
    ∀ (rows usedR usedC : List Nat) (p : Nat × Nat),
      p ∈ Tracker.greedyPairs cols far rows usedR usedC → p.1 ∈ rows := by
  intro rows
  induction rows with
  | nil => intro usedR usedC p hp; cases hp
  | cons r rs ih =>
    intro usedR usedC p hp
    unfold Tracker.greedyPairs at hp
    by_cases h1 : r ∈ usedR ∨ cols r ∈ usedC
    · rw [if_pos h1] at hp
      exact List.mem_cons_of_mem r (ih _ _ p hp)
    · rw [if_neg h1] at hp
      by_cases h2 : far r = true
      · rw [if_pos h2] at hp
        exact List.mem_cons_of_mem r (ih _ _ p hp)
      · rw [if_neg h2] at hp
        rcases List.mem_cons.mp hp with hp | hp
        · rw [hp]
          exact List.mem_cons_self r rs
        · exact List.mem_cons_of_mem r (ih _ _ p hp)

/-- The sorted row order is a permutation of all live-object rows. -/
theorem sortedRows_perm (ocs ics : List (ℚ × ℚ)) :
    (Tracker.sortedRows ocs ics).Perm (List.range ocs.length) :=
  perm_isort _ _

/-- Every assigned row index is a valid live-object index. -/
theorem matchPairs_fst_lt (ocs ics : List (ℚ × ℚ)) (maxd : ℚ) (p : Nat × Nat)
    (hp : p ∈ Tracker.matchPairs ocs ics maxd) : p.1 < ocs.length := by
  have h1 := greedyPairs_fst_mem _ _ _ _ _ p hp
  have h2 := (sortedRows_perm ocs ics).mem_iff.mp h1
  exact List.mem_range.mp h2

end Tracker

theorem getD_of_lt : ∀ (l : List α) (n : Nat) (d : α) (h : n < l.length),
    l.getD n d = l.get ⟨n, h⟩
  | _ :: _, 0, _, _ => rfl
  | _ :: t, n + 1, d, h => getD_of_lt t n d (Nat.lt_of_succ_lt_succ h)

/-- C6 (amended): on any `update` call, every object that is still live
after the load-shedding step and is not matched to a detection (in
particular every live object when detections is empty) has its
`disappeared` counter incremented by exactly one, and is removed from the
live set during that same call exactly when the incremented counter
exceeds `max_disappeared`; if such an evicted object was in `"scanned"`
state it ends `"exited"` with the exit time stamped. -/
theorem c6_unmatched_bump_amended (s s1 : TS) (now : ℚ) (dets : List Det)
    (frame : Option (Nat → Nat)) (id : Nat) (c : ℚ × ℚ) (d : Nat) (st : String)
    (hs1 : s1 = Tracker.loadshed s now dets.length)
    (hnodupO : (s1.objects.map Prod.fst).Nodup)
    (hnodupD : (s1.disappeared.map Prod.fst).Nodup)
    (hlive : alookup s1.objects id = some c)
    (hdis : alookup s1.disappeared id = some d)
    (hst : alookup s1.states id = some st)
    (hfresh : id < s1.next_object_id)
    (hunmatched : dets ≠ [] → id ∉ Tracker.matchedIds s1 dets) :
    alookup (Tracker.update s now dets frame).disappeared id
      = (if d + 1 > s1.max_disappeared then none else some (d + 1))
    ∧ ((alookup (Tracker.update s now dets frame).objects id = none)
        ↔ d + 1 > s1.max_disappeared)
    ∧ (d + 1 > s1.max_disappeared → st = "scanned" →
        alookup (Tracker.update s now dets frame).states id = some "exited"
        ∧ alookup (Tracker.update s now dets frame).exit_times id = some now) := by
  cases dets with
  | nil =>
    have hs1' : s1 = s := by rw [hs1]; exact Tracker.loadshed_zero s now
    subst hs1'
    rw [Tracker.update_eq_empty _ now frame]
    have hidmem : id ∈ s1.disappeared.map Prod.fst :=
      (mem_keys_iff_isSome _ _).mpr (by rw [hdis]; rfl)
    exact Tracker.bumpMany_effect now _ id s1 c d st hidmem hnodupD hlive hdis hst
  | cons d0 rest =>
    have hlen : (d0 :: rest).length ≠ 0 := by simp
    have hobjne : s1.objects.length ≠ 0 := by
      intro hh
      rw [List.length_eq_zero] at hh
      rw [hh] at hlive
      cases hlive
    have hupd : Tracker.update s now (d0 :: rest) frame
        = Tracker.matchStage s1 now (d0 :: rest) frame := by
      rw [Tracker.update_eq_matchStage s now (d0 :: rest) frame hlen
        (by rw [← hs1]; exact hobjne), ← hs1]
    rw [hupd]
    unfold Tracker.matchStage
    have hallne : ∀ p ∈ Tracker.matchPairs (s1.objects.map Prod.snd)
        ((d0 :: rest).map Tracker.centroidOf) s1.max_distance,
        id ≠ (s1.objects.map Prod.fst).getD p.1 0 := by
      intro p hp heq
      apply hunmatched (by simp)
      unfold Tracker.matchedIds
      exact List.mem_map.mpr ⟨p, hp, heq.symm⟩
    have h1 := Tracker.applyAll_untouched now (s1.objects.map Prod.fst)
      ((d0 :: rest).map Tracker.centroidOf) ((d0 :: rest).map Tracker.bboxOf)
      (Tracker.matchPairs (s1.objects.map Prod.snd)
        ((d0 :: rest).map Tracker.centroidOf) s1.max_distance) id s1 hallne
    set s2 := (Tracker.matchPairs (s1.objects.map Prod.snd)
        ((d0 :: rest).map Tracker.centroidOf) s1.max_distance).foldl
      (Tracker.applyMatch now (s1.objects.map Prod.fst)
        ((d0 :: rest).map Tracker.centroidOf)
        ((d0 :: rest).map Tracker.bboxOf)) s1 with hs2def
    have hidmemO : id ∈ s1.objects.map Prod.fst :=
      (mem_keys_iff_isSome _ _).mpr (by rw [hlive]; rfl)
    obtain ⟨⟨r, hrlt⟩, hrid⟩ := List.get_of_mem hidmemO
    have hgetD : (s1.objects.map Prod.fst).getD r 0 = id := by
      rw [getD_of_lt _ r 0 hrlt]; exact hrid
    have hrnotfst : r ∉ (Tracker.matchPairs (s1.objects.map Prod.snd)
        ((d0 :: rest).map Tracker.centroidOf) s1.max_distance).map Prod.fst := by
      intro hmem
      obtain ⟨p, hp, hpr⟩ := List.mem_map.mp hmem
      exact hallne p hp (by rw [hpr, hgetD])
    have hidbump : id ∈ Tracker.unmatchedRowIds s1 (d0 :: rest) := by
      unfold Tracker.unmatchedRowIds
      refine List.mem_map.mpr ⟨r, ?_, hgetD⟩
      refine List.mem_filter.mpr ⟨List.mem_range.mpr hrlt, ?_⟩
      simpa using hrnotfst
    have hnodupBump : (Tracker.unmatchedRowIds s1 (d0 :: rest)).Nodup := by
      unfold Tracker.unmatchedRowIds
      apply List.Nodup.map_on
      · intro x hx y hy hxy
        have hxlt : x < (s1.objects.map Prod.fst).length :=
          List.mem_range.mp (List.mem_filter.mp hx).1
        have hylt : y < (s1.objects.map Prod.fst).length :=
          List.mem_range.mp (List.mem_filter.mp hy).1
        rw [getD_of_lt _ x 0 hxlt, getD_of_lt _ y 0 hylt] at hxy
        have := (List.Nodup.get_inj_iff hnodupO).mp hxy
        exact congrArg Fin.val this
      · exact (List.nodup_range _).filter _
    have ho2 : alookup s2.objects id = some c := h1.1.trans hlive
    have hd2 : alookup s2.disappeared id = some d := h1.2.1.trans hdis
    have hst2 : alookup s2.states id = some st := by rw [h1.2.2.1]; exact hst
    have heff := Tracker.bumpMany_effect now
      (Tracker.unmatchedRowIds s1 (d0 :: rest)) id s2 c d st hidbump
      hnodupBump ho2 hd2 hst2
    rw [h1.2.2.2.2.1] at heff
    have hcfg3 := Tracker.bumpMany_config now
      (Tracker.unmatchedRowIds s1 (d0 :: rest)) s2
    have hlt3 : id < (Tracker.bumpMany now
        (Tracker.unmatchedRowIds s1 (d0 :: rest)) s2).next_object_id := by
      rw [hcfg3.2, h1.2.2.2.2.2]
      exact hfresh
    have h3 := Tracker.registerFold_untouched now frame
      ((d0 :: rest).map Tracker.centroidOf) ((d0 :: rest).map Tracker.bboxOf)
      (Tracker.unusedColsOf s1 (d0 :: rest)) id
      (Tracker.bumpMany now (Tracker.unmatchedRowIds s1 (d0 :: rest)) s2) hlt3
    refine ⟨h3.2.1.trans heff.1, ?_, ?_⟩
    · rw [h3.1]; exact heff.2.1
    · intro hov hsc
      exact ⟨h3.2.2.1.trans ((heff.2.2 hov hsc).1),
        h3.2.2.2.trans ((heff.2.2 hov hsc).2)⟩

theorem bool_eq_false {b : Bool} (h : ¬ b = true) : b = false := by
  cases b
  · rfl
  · exact absurd rfl h

theorem foldl_min_le_init (l : List ℚ) : ∀ a : ℚ, l.foldl min a ≤ a := by
  induction l with
  | nil => intro a; exact le_refl a
  | cons x t ih => intro a; exact le_trans (ih (min a x)) (min_le_left a x)

theorem foldl_min_le_mem (l : List ℚ) : ∀ a : ℚ, ∀ x ∈ l, l.foldl min a ≤ x := by
  induction l with
  | nil => intro a x hx; cases hx
  | cons y t ih =>
    intro a x hx
    rcases List.mem_cons.mp hx with rfl | hx
    · exact le_trans (foldl_min_le_init t (min a x)) (min_le_right a x)
    · exact ih (min a y) x hx

theorem foldl_min_mem (l : List ℚ) : ∀ a : ℚ, l.foldl min a = a ∨ l.foldl min a ∈ l := by
  induction l with
  | nil => intro a; exact Or.inl rfl
  | cons x t ih =>
    intro a
    rcases ih (min a x) with h | h
    · rcases min_choice a x with hm | hm
      · exact Or.inl (by rw [List.foldl_cons, h, hm])
      · exact Or.inr (by rw [List.foldl_cons, h, hm]; exact List.mem_cons_self x t)
    · exact Or.inr (List.mem_cons_of_mem x (by rw [List.foldl_cons]; exact h))

namespace Tracker

theorem listMin_le (l : List ℚ) (x : ℚ) (hx : x ∈ l) : Tracker.listMin l ≤ x :=
  foldl_min_le_mem l _ x hx

theorem listMin_mem (l : List ℚ) (h : l ≠ []) : Tracker.listMin l ∈ l := by
  rcases foldl_min_mem l (l.headD 0) with hh | hh
  · unfold Tracker.listMin
    rw [hh]
    cases l with
    | nil => exact absurd rfl h
    | cons x t => exact List.mem_cons_self x t
  · exact hh

/-- `rows = D.min(axis=1)`: the row minimum is a lower bound on the row. -/
theorem rowMin_le (ocs ics : List (ℚ × ℚ)) (r c : Nat) (hc : c < ics.length) :
    Tracker.rowMin ocs ics r ≤ Tracker.pairD2 ocs ics r c :=
  listMin_le _ _ (List.mem_map.mpr ⟨c, List.mem_range.mpr hc, rfl⟩)

/-- `numpy.argmin` correctness: the chosen column is valid and attains
the row minimum. -/
theorem argminCol_spec (ocs ics : List (ℚ × ℚ)) (r : Nat) (hne : ics ≠ []) :
    Tracker.argminCol ocs ics r < ics.length
    ∧ Tracker.pairD2 ocs ics r (Tracker.argminCol ocs ics r)
        = Tracker.rowMin ocs ics r := by
  have hmem : Tracker.rowMin ocs ics r
      ∈ (List.range ics.length).map (Tracker.pairD2 ocs ics r) := by
    apply listMin_mem
    simp [List.length_eq_zero, hne]
  obtain ⟨c, hc, hcd⟩ := List.mem_map.mp hmem
  cases hfind : (List.range ics.length).find?
      (fun cc => decide (Tracker.pairD2 ocs ics r cc = Tracker.rowMin ocs ics r)) with
  | none =>
    exfalso
    have := List.find?_eq_none.mp hfind c hc
    simp [hcd] at this
  | some y =>
    have hp := List.find?_some hfind
    have hmemy := List.mem_of_find?_eq_some hfind
    have hargy : Tracker.argminCol ocs ics r = y := by
      unfold Tracker.argminCol
      rw [hfind]
      rfl
    rw [hargy]
    exact ⟨List.mem_range.mp hmemy, of_decide_eq_true hp⟩

theorem greedyPairs_cons_skip (cols : Nat → Nat) (far : Nat → Bool)
    (r : Nat) (rs uR uC : List Nat) (h : r ∈ uR ∨ cols r ∈ uC) :
    Tracker.greedyPairs cols far (r :: rs) uR uC
      = Tracker.greedyPairs cols far rs uR uC := by
  conv_lhs => unfold Tracker.greedyPairs
  rw [if_pos h]

theorem greedyPairs_cons_far (cols : Nat → Nat) (far : Nat → Bool)
    (r : Nat) (rs uR uC : List Nat) (h1 : ¬(r ∈ uR ∨ cols r ∈ uC))
    (h2 : far r = true) :
    Tracker.greedyPairs cols far (r :: rs) uR uC
      = Tracker.greedyPairs cols far rs uR uC := by
  conv_lhs => unfold Tracker.greedyPairs
  rw [if_neg h1, if_pos h2]

theorem greedyPairs_cons_take (cols : Nat → Nat) (far : Nat → Bool)
    (r : Nat) (rs uR uC : List Nat) (h1 : ¬(r ∈ uR ∨ cols r ∈ uC))
    (h2 : far r = false) :
    Tracker.greedyPairs cols far (r :: rs) uR uC
      = (r, cols r) :: Tracker.greedyPairs cols far rs (r :: uR) (cols r :: uC) := by
  conv_lhs => unfold Tracker.greedyPairs
  rw [if_neg h1, if_neg (by simp [h2])]

/-- Every assigned pair pairs a row with its argmin column, within
`max_distance`. -/
theorem greedyPairs_mem_spec (cols : Nat → Nat) (far : Nat → Bool) :
    ∀ (rows uR uC : List Nat) (p : Nat × Nat),
      p ∈ Tracker.greedyPairs cols far rows uR uC →
      p.2 = cols p.1 ∧ far p.1 = false := by
  intro rows
  induction rows with
  | nil => intro uR uC p hp; cases hp
  | cons r rs ih =>
    intro uR uC p hp
    by_cases h1 : r ∈ uR ∨ cols r ∈ uC
    · rw [greedyPairs_cons_skip _ _ _ _ _ _ h1] at hp
      exact ih _ _ p hp
    · by_cases h2 : far r = true
      · rw [greedyPairs_cons_far _ _ _ _ _ _ h1 h2] at hp
        exact ih _ _ p hp
      · have h2' : far r = false := bool_eq_false h2
        rw [greedyPairs_cons_take _ _ _ _ _ _ h1 h2'] at hp
        rcases List.mem_cons.mp hp with hp | hp
        · rw [hp]; exact ⟨rfl, h2'⟩
        · exact ih _ _ p hp

/-- The greedy loop only consults the used-row/used-column accumulators
through membership. -/
theorem greedyPairs_congr (cols : Nat → Nat) (far : Nat → Bool) :
    ∀ (rows uR uR' uC uC' : List Nat),
      (∀ x, x ∈ uR ↔ x ∈ uR') → (∀ x, x ∈ uC ↔ x ∈ uC') →
      Tracker.greedyPairs cols far rows uR uC
        = Tracker.greedyPairs cols far rows uR' uC' := by
  intro rows
  induction rows with
  | nil => intro uR uR' uC uC' _ _; rfl
  | cons r rs ih =>
    intro uR uR' uC uC' hR hC
    by_cases h1 : r ∈ uR ∨ cols r ∈ uC
    · have h1' : r ∈ uR' ∨ cols r ∈ uC' := by
        rcases h1 with h | h
        · exact Or.inl ((hR r).mp h)
        · exact Or.inr ((hC (cols r)).mp h)
      rw [greedyPairs_cons_skip _ _ _ _ _ _ h1,
        greedyPairs_cons_skip _ _ _ _ _ _ h1']
      exact ih _ _ _ _ hR hC
    · have h1' : ¬(r ∈ uR' ∨ cols r ∈ uC') := by
        intro hh
        apply h1
        rcases hh with h | h
        · exact Or.inl ((hR r).mpr h)
        · exact Or.inr ((hC (cols r)).mpr h)
      by_cases h2 : far r = true
      · rw [greedyPairs_cons_far _ _ _ _ _ _ h1 h2,
          greedyPairs_cons_far _ _ _ _ _ _ h1' h2]
        exact ih _ _ _ _ hR hC
      · have h2' : far r = false := bool_eq_false h2
        rw [greedyPairs_cons_take _ _ _ _ _ _ h1 h2',
          greedyPairs_cons_take _ _ _ _ _ _ h1' h2']
        congr 1
        apply ih
        · intro x; simp [List.mem_cons, hR x]
        · intro x; simp [List.mem_cons, hC x]

/-- Decomposition of the greedy loop across an append: the second part
runs with the first part's assignments marked as consumed. -/
theorem greedyPairs_append (cols : Nat → Nat) (far : Nat → Bool) :
    ∀ (l₁ l₂ uR uC : List Nat),
      Tracker.greedyPairs cols far (l₁ ++ l₂) uR uC
        = Tracker.greedyPairs cols far l₁ uR uC
          ++ Tracker.greedyPairs cols far l₂
              ((Tracker.greedyPairs cols far l₁ uR uC).map Prod.fst ++ uR)
              ((Tracker.greedyPairs cols far l₁ uR uC).map Prod.snd ++ uC) := by
  intro l₁
  induction l₁ with
  | nil =>
    intro l₂ uR uC
    simp only [List.nil_append]
    have h0 : Tracker.greedyPairs cols far [] uR uC = [] := rfl
    rw [h0]
    simp
  | cons r rs ih =>
    intro l₂ uR uC
    rw [List.cons_append]
    by_cases h1 : r ∈ uR ∨ cols r ∈ uC
    · rw [greedyPairs_cons_skip _ _ _ _ _ _ h1,
        greedyPairs_cons_skip _ _ _ _ _ _ h1, ih]
    · by_cases h2 : far r = true
      · rw [greedyPairs_cons_far _ _ _ _ _ _ h1 h2,
          greedyPairs_cons_far _ _ _ _ _ _ h1 h2, ih]
      · have h2' : far r = false := bool_eq_false h2
        rw [greedyPairs_cons_take _ _ _ _ _ _ h1 h2',
          greedyPairs_cons_take _ _ _ _ _ _ h1 h2', ih]
        simp only [List.cons_append, List.map_cons]
        congr 2
        apply greedyPairs_congr
        · intro x
          simp only [List.mem_append, List.mem_cons]
          tauto
        · intro x
          simp only [List.mem_append, List.mem_cons]
          tauto

end Tracker

/-- C5: for non-empty detections and a non-empty live set, the assignment
computed by `update`'s matching step is the deterministic greedy
row-priority matching: (i) the processed row order is a permutation of
all live rows sorted ascending by each row's minimum distance to any
detection; (ii) `rowMin` really is the row minimum and `argminCol`
attains it; (iii) every assigned pair pairs a row with its arg-min
column at distance within `maxDistance`; (iv) the row at any position
`i` of the order is paired with its arg-min column exactly when neither
that row nor that column was consumed by an earlier row in the order and
the distance does not exceed `maxDistance`; (v) `update` is a function
of its inputs, so repeated runs on the same inputs give the same
result. -/
theorem c5_greedy_assignment (s : TS) (now : ℚ) (dets : List Det)
    (frame : Option (Nat → Nat)) (i : Nat)
    (hne : dets ≠ [])
    (hi : i < (Tracker.sortedRows (s.objects.map Prod.snd)
        (dets.map Tracker.centroidOf)).length) :
    let ocs := s.objects.map Prod.snd
    let ics := dets.map Tracker.centroidOf
    let rows := Tracker.sortedRows ocs ics
    let ri := rows.get ⟨i, hi⟩
    let pairs := Tracker.matchPairs ocs ics s.max_distance
    let prefixPairs := Tracker.greedyPairs (Tracker.argminCol ocs ics)
        (Tracker.tooFar ocs ics s.max_distance) (rows.take i) [] []
    rows.Perm (List.range ocs.length)
    ∧ rows.Pairwise (fun a b => Tracker.rowMin ocs ics a ≤ Tracker.rowMin ocs ics b)
    ∧ (∀ c < ics.length, Tracker.rowMin ocs ics ri ≤ Tracker.pairD2 ocs ics ri c)
    ∧ Tracker.pairD2 ocs ics ri (Tracker.argminCol ocs ics ri)
        = Tracker.rowMin ocs ics ri
    ∧ (∀ p ∈ pairs, p.2 = Tracker.argminCol ocs ics p.1
        ∧ Tracker.tooFar ocs ics s.max_distance p.1 = false)
    ∧ ((ri, Tracker.argminCol ocs ics ri) ∈ pairs ↔
        (ri ∉ prefixPairs.map Prod.fst
         ∧ Tracker.argminCol ocs ics ri ∉ prefixPairs.map Prod.snd
         ∧ Tracker.tooFar ocs ics s.max_distance ri = false))
    ∧ (∀ s' dets' frame', s' = s → dets' = dets → frame' = frame →
        Tracker.update s' now dets' frame' = Tracker.update s now dets frame) := by
  intro ocs ics rows ri pairs prefixPairs
  have hics : ics ≠ [] := by
    intro hh
    exact hne (List.map_eq_nil.mp hh)
  have hperm : rows.Perm (List.range ocs.length) := Tracker.sortedRows_perm ocs ics
  have hnodup : rows.Nodup := hperm.nodup_iff.mpr (List.nodup_range _)
  refine ⟨hperm, ?_, ?_, ?_, ?_, ?_, ?_⟩
  · have h := pairwise_isort
      (fun a b => decide (Tracker.rowMin ocs ics a ≤ Tracker.rowMin ocs ics b))
      (fun a b => by
        rcases le_total (Tracker.rowMin ocs ics a) (Tracker.rowMin ocs ics b)
          with h | h
        · exact Or.inl (decide_eq_true h)
        · exact Or.inr (decide_eq_true h))
      (fun a b c hab hbc => decide_eq_true
        (le_trans (of_decide_eq_true hab) (of_decide_eq_true hbc)))
      (List.range ocs.length)
    exact h.imp (fun hab => of_decide_eq_true hab)
  · intro c hc
    exact Tracker.rowMin_le ocs ics ri c hc
  · exact (Tracker.argminCol_spec ocs ics ri hics).2
  · intro p hp
    exact Tracker.greedyPairs_mem_spec _ _ _ _ _ p hp
  · -- exactly-when characterization at position i
    have hsplit : rows = rows.take i ++ ri :: rows.drop (i + 1) := by
      conv_lhs => rw [← List.take_append_drop i rows]
      congr 1
      exact List.drop_eq_get_cons hi |>.symm |>.symm
    have hnodup2 : (rows.take i ++ ri :: rows.drop (i + 1)).Nodup := by
      rw [← hsplit]; exact hnodup
    have hri_take : ri ∉ rows.take i := by
      intro hmem
      rcases List.nodup_append.mp hnodup2 with ⟨-, -, hdisj⟩
      exact hdisj hmem (List.mem_cons_self _ _)
    have hri_drop : ri ∉ rows.drop (i + 1) := by
      rcases List.nodup_append.mp hnodup2 with ⟨-, hcons, -⟩
      exact (List.nodup_cons.mp hcons).1
    have hdecomp : pairs = prefixPairs
        ++ Tracker.greedyPairs (Tracker.argminCol ocs ics)
            (Tracker.tooFar ocs ics s.max_distance)
            (ri :: rows.drop (i + 1))
            (prefixPairs.map Prod.fst) (prefixPairs.map Prod.snd) := by
      show Tracker.greedyPairs (Tracker.argminCol ocs ics)
          (Tracker.tooFar ocs ics s.max_distance) rows [] [] = _
      conv_lhs => rw [hsplit]
      rw [Tracker.greedyPairs_append]
      simp only [List.append_nil]
    have hri_fst : ri ∉ prefixPairs.map Prod.fst := by
      intro h
      obtain ⟨p, hp, hpr⟩ := List.mem_map.mp h
      have hmem := Tracker.greedyPairs_fst_mem _ _ _ _ _ p hp
      rw [hpr] at hmem
      exact hri_take hmem
    have hnotP : (ri, Tracker.argminCol ocs ics ri) ∉ prefixPairs := fun h =>
      hri_fst (List.mem_map.mpr ⟨_, h, rfl⟩)
    have hnotTail : ∀ uR' uC', (ri, Tracker.argminCol ocs ics ri) ∉
        Tracker.greedyPairs (Tracker.argminCol ocs ics)
          (Tracker.tooFar ocs ics s.max_distance)
          (rows.drop (i + 1)) uR' uC' := fun uR' uC' h =>
      hri_drop (Tracker.greedyPairs_fst_mem _ _ _ _ _ _ h)
    constructor
    · intro hmem
      rw [hdecomp] at hmem
      rcases List.mem_append.mp hmem with hm | hm
      · exact absurd hm hnotP
      · by_cases hc2 : Tracker.argminCol ocs ics ri ∈ prefixPairs.map Prod.snd
        · rw [Tracker.greedyPairs_cons_skip _ _ _ _ _ _ (Or.inr hc2)] at hm
          exact absurd hm (hnotTail _ _)
        · by_cases hfar : Tracker.tooFar ocs ics s.max_distance ri = true
          · rw [Tracker.greedyPairs_cons_far _ _ _ _ _ _
              (by rintro (h | h); exact hri_fst h; exact hc2 h) hfar] at hm
            exact absurd hm (hnotTail _ _)
          · exact ⟨hri_fst, hc2, bool_eq_false hfar⟩
    · rintro ⟨ha, hb, hcf⟩
      rw [hdecomp]
      apply List.mem_append.mpr
      right
      rw [Tracker.greedyPairs_cons_take _ _ _ _ _ _
        (by rintro (h | h); exact ha h; exact hb h) hcf]
      exact List.mem_cons_self _ _
  · intro s' dets' frame' h1 h2 h3
    rw [h1, h2, h3]


theorem rank_new : rank (some "new") = 1 := by decide
theorem rank_scanned : rank (some "scanned") = 2 := by decide
theorem rank_exited : rank (some "exited") = 3 := by decide

theorem mono_refl (s : TS) : Mono s s := fun _ => le_refl _

theorem mono_trans {a b c : TS} (h1 : Mono a b) (h2 : Mono b c) : Mono a c :=
  fun id => le_trans (h1 id) (h2 id)

theorem mono_of_states_eq {a b : TS} (h : b.states = a.states) : Mono a b :=
  fun id => by rw [h]

/-- With the value invariant, rank 3 pins the state to `"exited"`. -/
theorem rank_three_cases (s' : TS)
    (W5 : ∀ id v, alookup s'.states id = some v →
      v = "new" ∨ v = "scanned" ∨ v = "exited")
    (id : Nat) (h : 3 ≤ rank (alookup s'.states id)) :
    alookup s'.states id = some "exited" := by
  cases hv : alookup s'.states id with
  | none => rw [hv] at h; simp [rank] at h
  | some v =>
    rcases W5 id v hv with h1 | h1 | h1 <;> subst h1
    · rw [hv] at h; rw [rank_new] at h; omega
    · rw [hv] at h; rw [rank_scanned] at h; omega
    · rfl

/-- `mark_as_scanned` preserves the invariants and is state-monotone. -/
theorem mark_as_scanned_pres (s : TS) (id : Nat) (h : WF s) :
    WF (Tracker.mark_as_scanned s id).1 ∧ Mono s (Tracker.mark_as_scanned s id).1 := by
  obtain ⟨W1, W2, W3, W5⟩ := h
  unfold Tracker.mark_as_scanned
  by_cases hl : (alookup s.objects id).isSome
  · rw [if_pos hl]
    dsimp only
    have hsid : (alookup s.states id).isSome := by
      rcases W2 id hl with h2 | h2 <;> rw [h2] <;> rfl
    constructor
    · refine ⟨?_, ?_, W3, ?_⟩
      · intro k hk
        rcases (isSome_alookup_aset s.states id k "scanned").mp hk with hk2 | hk2
        · subst hk2; exact W1 k hsid
        · exact W1 k hk2
      · intro k hk
        by_cases hk2 : k = id
        · subst hk2; rw [alookup_aset_self]; exact Or.inr rfl
        · rw [alookup_aset_ne _ _ _ _ hk2]; exact W2 k hk
      · intro k v hv
        by_cases hk2 : k = id
        · subst hk2
          rw [alookup_aset_self] at hv
          exact Or.inr (Or.inl (Option.some.inj hv).symm)
        · rw [alookup_aset_ne _ _ _ _ hk2] at hv
          exact W5 k v hv
    · intro k
      by_cases hk2 : k = id
      · subst hk2
        rw [alookup_aset_self, rank_scanned]
        rcases W2 k hl with h2 | h2 <;> rw [h2]
        · rw [rank_new]; omega
        · rw [rank_scanned]
      · rw [alookup_aset_ne _ _ _ _ hk2]
  · rw [if_neg hl]
    exact ⟨⟨W1, W2, W3, W5⟩, mono_refl s⟩

/-- `mark_as_counted` preserves the invariants and is state-monotone. -/
theorem mark_as_counted_pres (s : TS) (now : ℚ) (id : Nat) (h : WF s) :
    WF (Tracker.mark_as_counted s now id)
    ∧ Mono s (Tracker.mark_as_counted s now id) := by
  obtain ⟨W1, W2, W3, W5⟩ := h
  unfold Tracker.mark_as_counted
  by_cases h1 : (alookup s.states id).isSome
  · rw [if_pos h1]
    by_cases h2 : alookup s.states id = some "new"
    · rw [if_pos h2]
      constructor
      · refine ⟨?_, ?_, W3, ?_⟩
        · intro k hk
          rcases (isSome_alookup_aset s.states id k "scanned").mp hk with hk2 | hk2
          · subst hk2; exact W1 k h1
          · exact W1 k hk2
        · intro k hk
          by_cases hk2 : k = id
          · subst hk2; rw [alookup_aset_self]; exact Or.inr rfl
          · rw [alookup_aset_ne _ _ _ _ hk2]; exact W2 k hk
        · intro k v hv
          by_cases hk2 : k = id
          · subst hk2
            rw [alookup_aset_self] at hv
            exact Or.inr (Or.inl (Option.some.inj hv).symm)
          · rw [alookup_aset_ne _ _ _ _ hk2] at hv
            exact W5 k v hv
      · intro k
        by_cases hk2 : k = id
        · subst hk2
          rw [alookup_aset_self, rank_scanned, h2, rank_new]
          omega
        · rw [alookup_aset_ne _ _ _ _ hk2]
    · rw [if_neg h2]
      exact ⟨⟨W1, W2, W3, W5⟩, mono_refl s⟩
  · rw [if_neg h1]
    exact ⟨⟨W1, W2, W3, W5⟩, mono_refl s⟩

/-- `deregister` preserves the invariants and is state-monotone. -/
theorem deregister_pres (s : TS) (now : ℚ) (id : Nat) (h : WF s) :
    WF (Tracker.deregister s now id) ∧ Mono s (Tracker.deregister s now id) := by
  obtain ⟨W1, W2, W3, W5⟩ := h
  have hcfg := Tracker.deregister_config s now id
  have hrem := Tracker.deregister_removes s now id
  by_cases hsc : alookup s.states id = some "scanned"
  · have heff := Tracker.deregister_scanned_effect s now id hsc
    have hunt := fun k (hk : k ≠ id) => Tracker.deregister_untouched s now id k hk
    constructor
    · refine ⟨?_, ?_, ?_, ?_⟩
      · intro k hk
        rw [hcfg.1]
        by_cases hk2 : k = id
        · subst hk2
          exact W1 k (by rw [hsc]; rfl)
        · rw [(hunt k hk2).2.2.2.1] at hk
          exact W1 k hk
      · intro k hk
        by_cases hk2 : k = id
        · subst hk2
          rw [hrem.1] at hk
          cases hk
        · rw [(hunt k hk2).1] at hk
          rw [(hunt k hk2).2.2.2.1]
          exact W2 k hk
      · intro hre
        rw [hcfg.2.2.2.2.2.2.2]
        exact W3 (by rw [← hcfg.2.2.2.2.1]; exact hre)
      · intro k v hv
        by_cases hk2 : k = id
        · subst hk2
          rw [heff.1] at hv
          exact Or.inr (Or.inr (Option.some.inj hv).symm)
        · rw [(hunt k hk2).2.2.2.1] at hv
          exact W5 k v hv
    · intro k
      by_cases hk2 : k = id
      · subst hk2
        rw [heff.1, hsc, rank_scanned, rank_exited]
        omega
      · rw [(hunt k hk2).2.2.2.1]
  · rw [Tracker.deregister_eq_of_not_scanned s now id hsc]
    constructor
    · refine ⟨W1, ?_, W3, W5⟩
      intro k hk
      by_cases hk2 : k = id
      · subst hk2
        rw [alookup_aerase_self] at hk
        cases hk
      · rw [alookup_aerase_ne _ _ _ hk2] at hk
        exact W2 k hk
    · exact mono_refl s

/-- `register` preserves the invariants and is state-monotone. -/
theorem register_pres (s : TS) (now : ℚ) (frame : Option (Nat → Nat))
    (c : ℚ × ℚ) (b : BBox) (h : WF s) :
    WF (Tracker.register s now frame c b).1
    ∧ Mono s (Tracker.register s now frame c b).1 := by
  obtain ⟨W1, W2, W3, W5⟩ := h
  have hnone : alookup s.states s.next_object_id = none := by
    cases hv : alookup s.states s.next_object_id with
    | none => rfl
    | some v => exact absurd (W1 _ (by rw [hv]; rfl)) (lt_irrefl _)
  have main : ∀ (t : TS) (vNew : String), (vNew = "new" ∨ vNew = "scanned") →
      t.states = aset s.states s.next_object_id vNew →
      t.objects = aset s.objects s.next_object_id c →
      t.next_object_id = s.next_object_id + 1 →
      (t.reid_enabled = false → t.person_ids = []) →
      WF t ∧ Mono s t := by
    intro t vNew hvNew hst hobj hnext hreid
    constructor
    · refine ⟨?_, ?_, hreid, ?_⟩
      · intro k hk
        rw [hst] at hk
        rw [hnext]
        rcases (isSome_alookup_aset s.states s.next_object_id k vNew).mp hk
          with hk2 | hk2
        · subst hk2; exact Nat.lt_succ_self _
        · exact Nat.lt_succ_of_lt (W1 k hk2)
      · intro k hk
        rw [hobj] at hk
        rw [hst]
        by_cases hk2 : k = s.next_object_id
        · subst hk2
          rw [alookup_aset_self]
          rcases hvNew with hh | hh <;> rw [hh]
          · exact Or.inl rfl
          · exact Or.inr rfl
        · rw [alookup_aset_ne _ _ _ _ hk2]
          rw [alookup_aset_ne _ _ _ _ hk2] at hk
          exact W2 k hk
      · intro k v hv
        rw [hst] at hv
        by_cases hk2 : k = s.next_object_id
        · subst hk2
          rw [alookup_aset_self] at hv
          have hvv := (Option.some.inj hv).symm
          rcases hvNew with hh | hh
          · exact Or.inl (hvv.trans hh)
          · exact Or.inr (Or.inl (hvv.trans hh))
        · rw [alookup_aset_ne _ _ _ _ hk2] at hv
          exact W5 k v hv
    · intro k
      rw [hst]
      by_cases hk2 : k = s.next_object_id
      · subst hk2
        rw [hnone]
        exact Nat.zero_le _
      · rw [alookup_aset_ne _ _ _ _ hk2]
  by_cases hr : s.reid_enabled
  · cases frame with
    | none =>
      rw [Tracker.register_frame_none s now c b]
      refine main _ "new" (Or.inl rfl) rfl rfl rfl ?_
      intro hh
      dsimp only at hh
      rw [hr] at hh
      exact Bool.noConfusion hh
    | some f =>
      by_cases hm : f s.next_object_id ∈ s.counted_people
      · rw [Tracker.register_eq_reid_counted s now f c b hr hm]
        refine main _ "scanned" (Or.inr rfl) rfl rfl rfl ?_
        intro hh
        dsimp only at hh
        rw [hr] at hh
        exact Bool.noConfusion hh
      · rw [Tracker.register_eq_reid_new s now f c b hr hm]
        refine main _ "new" (Or.inl rfl) rfl rfl rfl ?_
        intro hh
        dsimp only at hh
        rw [hr] at hh
        exact Bool.noConfusion hh
  · rw [Tracker.register_eq_reid_off s now frame c b (by simpa using hr)]
    refine main _ "new" (Or.inl rfl) rfl rfl rfl ?_
    intro _
    exact W3 (by simpa using hr)

/-- Transfer of the invariants along componentwise relations between two
tracker states. -/
theorem wf_transfer {s t : TS} (h : WF s)
    (hst : t.states = s.states)
    (hob : ∀ k, (alookup t.objects k).isSome → (alookup s.objects k).isSome)
    (hre : t.reid_enabled = false → t.person_ids = [])
    (hnx : s.next_object_id ≤ t.next_object_id) : WF t := by
  obtain ⟨W1, W2, W3, W5⟩ := h
  refine ⟨?_, ?_, hre, ?_⟩
  · intro k hk
    rw [hst] at hk
    exact lt_of_lt_of_le (W1 k hk) hnx
  · intro k hk
    rw [hst]
    exact W2 k (hob k hk)
  · intro k v hv
    rw [hst] at hv
    exact W5 k v hv

/-- A fold of invariant-preserving monotone steps preserves the invariants
and is monotone. -/
theorem foldl_pres {β : Type} (f : TS → β → TS)
    (hstep : ∀ t b, WF t → WF (f t b) ∧ Mono t (f t b)) :
    ∀ (l : List β) (t : TS), WF t →
      WF (l.foldl f t) ∧ Mono t (l.foldl f t) := by
  intro l
  induction l with
  | nil => intro t h; exact ⟨h, mono_refl t⟩
  | cons x rest ih =>
    intro t h
    have h1 := hstep t x h
    have h2 := ih (f t x) h1.1
    exact ⟨h2.1, mono_trans h1.2 h2.2⟩

/-- `bumpOne` preserves the invariants and is state-monotone. -/
theorem bumpOne_pres (now : ℚ) (s : TS) (id : Nat) (h : WF s) :
    WF (Tracker.bumpOne now s id) ∧ Mono s (Tracker.bumpOne now s id) := by
  cases hd : alookup s.disappeared id with
  | none =>
    unfold Tracker.bumpOne
    rw [hd]
    exact ⟨h, mono_refl s⟩
  | some d =>
    rw [Tracker.bumpOne_eq_some now s id d hd]
    have hmid : WF { s with disappeared := aset s.disappeared id (d + 1) } :=
      wf_transfer h rfl (fun k hk => hk) (fun hh => h.2.2.1 hh) (le_refl _)
    by_cases hover : d + 1 > s.max_disappeared
    · rw [if_pos hover]
      have hder := deregister_pres _ now id hmid
      exact ⟨hder.1, mono_trans (mono_of_states_eq rfl) hder.2⟩
    · rw [if_neg hover]
      exact ⟨hmid, mono_of_states_eq rfl⟩

/-- `loadshed` preserves the invariants and is state-monotone. -/
theorem loadshed_pres (s : TS) (now : ℚ) (numDets : Nat) (h : WF s) :
    WF (Tracker.loadshed s now numDets)
    ∧ Mono s (Tracker.loadshed s now numDets) := by
  unfold Tracker.loadshed
  split
  · exact foldl_pres _ (fun t p ht => deregister_pres t now p.1 ht) _ s h
  · exact ⟨h, mono_refl s⟩

/-- `applyMatch` overwrites the row's live entry and leaves the ReID
fields alone. -/
theorem applyMatch_core (now : ℚ) (object_ids : List Nat)
    (ics : List (ℚ × ℚ)) (bbs : List BBox) (s : TS) (p : Nat × Nat) :
    (Tracker.applyMatch now object_ids ics bbs s p).objects
      = aset s.objects (object_ids.getD p.1 0) (ics.getD p.2 (0, 0))
    ∧ (Tracker.applyMatch now object_ids ics bbs s p).reid_enabled
        = s.reid_enabled
    ∧ (Tracker.applyMatch now object_ids ics bbs s p).person_ids
        = s.person_ids := by
  unfold Tracker.applyMatch
  dsimp only
  split
  · exact ⟨rfl, rfl, rfl⟩
  · exact ⟨rfl, rfl, rfl⟩

/-- A fold of `applyMatch` over pairs whose rows index the live-object
list keeps the states, the live key set, the ReID fields and the id
counter of the base state. -/
theorem applyAll_pres (now : ℚ) (s : TS) (ics : List (ℚ × ℚ))
    (bbs : List BBox) :
    ∀ (pairs : List (Nat × Nat)) (t : TS),
      (∀ p ∈ pairs, p.1 < s.objects.length) →
      t.states = s.states →
      (∀ k, (alookup t.objects k).isSome ↔ (alookup s.objects k).isSome) →
      t.reid_enabled = s.reid_enabled →
      t.person_ids = s.person_ids →
      t.next_object_id = s.next_object_id →
      (pairs.foldl (Tracker.applyMatch now (s.objects.map Prod.fst) ics bbs)
          t).states = s.states
      ∧ (∀ k, (alookup (pairs.foldl
            (Tracker.applyMatch now (s.objects.map Prod.fst) ics bbs)
            t).objects k).isSome ↔ (alookup s.objects k).isSome)
      ∧ (pairs.foldl (Tracker.applyMatch now (s.objects.map Prod.fst) ics bbs)
            t).reid_enabled = s.reid_enabled
      ∧ (pairs.foldl (Tracker.applyMatch now (s.objects.map Prod.fst) ics bbs)
            t).person_ids = s.person_ids
      ∧ (pairs.foldl (Tracker.applyMatch now (s.objects.map Prod.fst) ics bbs)
            t).next_object_id = s.next_object_id := by
  intro pairs
  induction pairs with
  | nil => intro t _ h1 h2 h3 h4 h5; exact ⟨h1, h2, h3, h4, h5⟩
  | cons p rest ih =>
    intro t hlt h1 h2 h3 h4 h5
    have hp : p.1 < s.objects.length := hlt p (List.mem_cons_self p rest)
    have hrest : ∀ q ∈ rest, q.1 < s.objects.length :=
      fun q hq => hlt q (List.mem_cons_of_mem p hq)
    have hoid : ((s.objects.map Prod.fst).getD p.1 0)
        ∈ s.objects.map Prod.fst := by
      rw [getD_of_lt _ _ _ (by simpa using hp)]
      exact List.get_mem _ _ _
    have hoidSome : (alookup s.objects
        ((s.objects.map Prod.fst).getD p.1 0)).isSome :=
      (mem_keys_iff_isSome s.objects _).mp hoid
    have hfields := Tracker.applyMatch_fields now (s.objects.map Prod.fst)
      ics bbs t p
    have hcore := applyMatch_core now (s.objects.map Prod.fst) ics bbs t p
    refine ih _ hrest (hfields.1.trans h1) ?_ (hcore.2.1.trans h3)
      (hcore.2.2.trans h4) (hfields.2.2.2.trans h5)
    intro k
    rw [hcore.1]
    constructor
    · intro hk
      rcases (isSome_alookup_aset t.objects _ k _).mp hk with hk2 | hk2
      · subst hk2; exact hoidSome
      · exact (h2 k).mp hk2
    · intro hk
      exact (isSome_alookup_aset t.objects _ k _).mpr
        (Or.inr ((h2 k).mpr hk))

/-- The active branch of the `check_for_exits` loop body. -/
theorem sweepOne_eq_active (now : ℚ) (acc : TS × List Nat) (p : Nat × TStamp)
    (hsc : alookup acc.1.states p.1 = some "scanned")
    (hcond : now - p.2.last_seen > acc.1.exit_timeout
      ∧ (alookup acc.1.objects p.1).isSome) :
    Tracker.sweepOne now acc p =
      (Tracker.deregister
        { acc.1 with states := aset acc.1.states p.1 "exited",
                     exit_times := aset acc.1.exit_times p.1 now } now p.1,
       acc.2 ++ [p.1]) := by
  unfold Tracker.sweepOne
  dsimp only
  rw [if_pos hsc, if_pos hcond]

/-- The inactive branches of the `check_for_exits` loop body. -/
theorem sweepOne_eq_skip (now : ℚ) (acc : TS × List Nat) (p : Nat × TStamp)
    (h : ¬ (alookup acc.1.states p.1 = some "scanned"
      ∧ now - p.2.last_seen > acc.1.exit_timeout
      ∧ (alookup acc.1.objects p.1).isSome)) :
    Tracker.sweepOne now acc p = acc := by
  unfold Tracker.sweepOne
  dsimp only
  by_cases hsc : alookup acc.1.states p.1 = some "scanned"
  · rw [if_pos hsc, if_neg (fun hc => h ⟨hsc, hc⟩)]
  · rw [if_neg hsc]

/-- The `check_for_exits` loop body preserves the invariants and is
state-monotone. -/
theorem sweepOne_pres (now : ℚ) (acc : TS × List Nat) (p : Nat × TStamp)
    (h : WF acc.1) :
    WF (Tracker.sweepOne now acc p).1
    ∧ Mono acc.1 (Tracker.sweepOne now acc p).1 := by
  obtain ⟨W1, W2, W3, W5⟩ := h
  by_cases hact : alookup acc.1.states p.1 = some "scanned"
    ∧ now - p.2.last_seen > acc.1.exit_timeout
    ∧ (alookup acc.1.objects p.1).isSome
  · obtain ⟨hsc, hcond⟩ := hact
    rw [sweepOne_eq_active now acc p hsc hcond]
    dsimp only
    have hnsc : ¬ alookup ({ acc.1 with
        states := aset acc.1.states p.1 "exited",
        exit_times := aset acc.1.exit_times p.1 now } : TS).states p.1
        = some "scanned" := by
      intro hh
      rw [show ({ acc.1 with
          states := aset acc.1.states p.1 "exited",
          exit_times := aset acc.1.exit_times p.1 now } : TS).states
          = aset acc.1.states p.1 "exited" from rfl,
        alookup_aset_self] at hh
      exact absurd (Option.some.inj hh) (by decide)
    rw [Tracker.deregister_eq_of_not_scanned _ now p.1 hnsc]
    constructor
    · refine ⟨?_, ?_, fun hh => W3 hh, ?_⟩
      · intro k hk
        have hk2 : (alookup (aset acc.1.states p.1 "exited") k).isSome := hk
        show k < acc.1.next_object_id
        rcases (isSome_alookup_aset acc.1.states p.1 k "exited").mp hk2
          with hk3 | hk3
        · subst hk3; exact W1 _ (by rw [hsc]; rfl)
        · exact W1 k hk3
      · intro k hk
        have hk2 : (alookup (aerase acc.1.objects p.1) k).isSome := hk
        show alookup (aset acc.1.states p.1 "exited") k = some "new"
          ∨ alookup (aset acc.1.states p.1 "exited") k = some "scanned"
        by_cases hk3 : k = p.1
        · subst hk3
          rw [alookup_aerase_self] at hk2
          cases hk2
        · rw [alookup_aerase_ne _ _ _ hk3] at hk2
          rw [alookup_aset_ne _ _ _ _ hk3]
          exact W2 k hk2
      · intro k v hv
        have hv2 : alookup (aset acc.1.states p.1 "exited") k = some v := hv
        by_cases hk3 : k = p.1
        · subst hk3
          rw [alookup_aset_self] at hv2
          exact Or.inr (Or.inr (Option.some.inj hv2).symm)
        · rw [alookup_aset_ne _ _ _ _ hk3] at hv2
          exact W5 k v hv2
    · intro k
      show rank (alookup acc.1.states k)
        ≤ rank (alookup (aset acc.1.states p.1 "exited") k)
      by_cases hk3 : k = p.1
      · subst hk3
        rw [alookup_aset_self, hsc, rank_scanned, rank_exited]
        omega
      · rw [alookup_aset_ne _ _ _ _ hk3]
  · rw [sweepOne_eq_skip now acc p hact]
    exact ⟨⟨W1, W2, W3, W5⟩, mono_refl acc.1⟩

/-- The `check_for_exits` fold preserves the invariants and is
state-monotone. -/
theorem sweep_fold_pres (now : ℚ) :
    ∀ (l : List (Nat × TStamp)) (acc : TS × List Nat), WF acc.1 →
      WF (l.foldl (Tracker.sweepOne now) acc).1
      ∧ Mono acc.1 (l.foldl (Tracker.sweepOne now) acc).1 := by
  intro l
  induction l with
  | nil => intro acc h; exact ⟨h, mono_refl acc.1⟩
  | cons x rest ih =>
    intro acc h
    have h1 := sweepOne_pres now acc x h
    have h2 := ih (Tracker.sweepOne now acc x) h1.1
    exact ⟨h2.1, mono_trans h1.2 h2.2⟩

/-- `check_for_exits` preserves the invariants and is state-monotone. -/
theorem check_for_exits_pres (s : TS) (now : ℚ) (h : WF s) :
    WF (Tracker.check_for_exits s now).1
    ∧ Mono s (Tracker.check_for_exits s now).1 :=
  sweep_fold_pres now s.timestamps (s, []) h

/-- The matching stage of `update` preserves the invariants and is
state-monotone. -/
theorem matchStage_pres (s : TS) (now : ℚ) (dets : List Det)
    (frame : Option (Nat → Nat)) (h : WF s) :
    WF (Tracker.matchStage s now dets frame)
    ∧ Mono s (Tracker.matchStage s now dets frame) := by
  have hpairs : ∀ p ∈ Tracker.matchPairs (s.objects.map Prod.snd)
      (dets.map Tracker.centroidOf) s.max_distance, p.1 < s.objects.length := by
    intro p hp
    have := Tracker.matchPairs_fst_lt _ _ _ p hp
    simpa using this
  have h1 := applyAll_pres now s (dets.map Tracker.centroidOf)
    (dets.map Tracker.bboxOf)
    (Tracker.matchPairs (s.objects.map Prod.snd)
      (dets.map Tracker.centroidOf) s.max_distance) s hpairs rfl
    (fun k => Iff.rfl) rfl rfl rfl
  have hWF1 : WF ((Tracker.matchPairs (s.objects.map Prod.snd)
      (dets.map Tracker.centroidOf) s.max_distance).foldl
        (Tracker.applyMatch now (s.objects.map Prod.fst)
          (dets.map Tracker.centroidOf) (dets.map Tracker.bboxOf)) s) := by
    refine wf_transfer h h1.1 (fun k hk => (h1.2.1 k).mp hk) ?_
      (le_of_eq h1.2.2.2.2.symm)
    intro hh
    rw [h1.2.2.2.1]
    exact h.2.2.1 (by rw [← h1.2.2.1]; exact hh)
  have hM1 : Mono s ((Tracker.matchPairs (s.objects.map Prod.snd)
      (dets.map Tracker.centroidOf) s.max_distance).foldl
        (Tracker.applyMatch now (s.objects.map Prod.fst)
          (dets.map Tracker.centroidOf) (dets.map Tracker.bboxOf)) s) :=
    mono_of_states_eq h1.1
  have h2 := foldl_pres (Tracker.bumpOne now)
    (fun t b ht => bumpOne_pres now t b ht)
    (Tracker.unmatchedRowIds s dets) _ hWF1
  have h3 := foldl_pres
    (fun acc c =>
      (Tracker.register acc now frame
        ((dets.map Tracker.centroidOf).getD c (0, 0))
        ((dets.map Tracker.bboxOf).getD c default)).1)
    (fun t b ht => register_pres t now frame _ _ ht)
    (Tracker.unusedColsOf s dets) _ h2.1
  exact ⟨h3.1, mono_trans hM1 (mono_trans h2.2 h3.2)⟩

/-- `update` preserves the invariants and is state-monotone. -/
theorem update_pres (s : TS) (now : ℚ) (dets : List Det)
    (frame : Option (Nat → Nat)) (h : WF s) :
    WF (Tracker.update s now dets frame)
    ∧ Mono s (Tracker.update s now dets frame) := by
  have h0 := loadshed_pres s now dets.length h
  unfold Tracker.update
  dsimp only
  split
  · have h1 := foldl_pres (Tracker.bumpOne now)
      (fun t b ht => bumpOne_pres now t b ht)
      ((Tracker.loadshed s now dets.length).disappeared.map Prod.fst) _ h0.1
    exact ⟨h1.1, mono_trans h0.2 h1.2⟩
  · split
    · have h1 := foldl_pres
        (fun acc d =>
          (Tracker.register acc now frame (Tracker.centroidOf d)
            (Tracker.bboxOf d)).1)
        (fun t b ht => register_pres t now frame _ _ ht)
        dets _ h0.1
      exact ⟨h1.1, mono_trans h0.2 h1.2⟩
    · have h1 := matchStage_pres (Tracker.loadshed s now dets.length) now
        dets frame h0.1
      exact ⟨h1.1, mono_trans h0.2 h1.2⟩

/-- The tracker component of `countStep` is either untouched or the
result of `mark_as_scanned` on the processed id. -/
theorem countStep_snd (cs : VisitorCounter.CS) (ts : TS)
    (o : Nat × Tracker.ObjView) :
    (VisitorCounter.countStep cs ts o).2 = ts
    ∨ (VisitorCounter.countStep cs ts o).2
        = (Tracker.mark_as_scanned ts o.1).1 := by
  rw [VisitorCounter.countStep_eq]
  split
  · exact Or.inl rfl
  · split
    · exact Or.inl rfl
    · split
      · exact Or.inr rfl
      · exact Or.inl rfl

/-- `count_visitors` preserves the invariants and is state-monotone on
its tracker component. -/
theorem count_visitors_pres (cs : VisitorCounter.CS) (ts : TS)
    (objs : List (Nat × Tracker.ObjView)) (h : WF ts) :
    WF (VisitorCounter.count_visitors cs ts objs).2
    ∧ Mono ts (VisitorCounter.count_visitors cs ts objs).2 := by
  suffices hgen : ∀ (l : List (Nat × Tracker.ObjView))
      (acc : VisitorCounter.CS × TS), WF acc.2 →
      WF (l.foldl (fun a o => VisitorCounter.countStep a.1 a.2 o) acc).2
      ∧ Mono acc.2
          (l.foldl (fun a o => VisitorCounter.countStep a.1 a.2 o) acc).2 by
    exact hgen objs (cs, ts) h
  intro l
  induction l with
  | nil => intro acc hacc; exact ⟨hacc, mono_refl acc.2⟩
  | cons x rest ih =>
    intro acc hacc
    have hstep : WF (VisitorCounter.countStep acc.1 acc.2 x).2
        ∧ Mono acc.2 (VisitorCounter.countStep acc.1 acc.2 x).2 := by
      rcases countStep_snd acc.1 acc.2 x with hh | hh
      · rw [hh]; exact ⟨hacc, mono_refl acc.2⟩
      · rw [hh]; exact mark_as_scanned_pres acc.2 x.1 hacc
    have h2 := ih (VisitorCounter.countStep acc.1 acc.2 x) hstep.1
    exact ⟨h2.1, mono_trans hstep.2 h2.2⟩

/-- The freshly constructed tracker satisfies the invariants. -/
theorem wf_init (maxd : Nat) (maxdist exitt : ℚ) (reid : Bool) :
    WF (Tracker.init maxd maxdist exitt reid) := by
  refine ⟨?_, ?_, ?_, ?_⟩
  · intro id hk; cases hk
  · intro id hk; cases hk
  · intro _; rfl
  · intro id v hv; cases hv

/-- Every public operation preserves the invariants and is
state-monotone. -/
theorem tstep_pres {s s' : TS} (hstep : TStep s s') (h : WF s) :
    WF s' ∧ Mono s s' := by
  cases hstep with
  | register now frame c b => exact register_pres s now frame c b h
  | deregister now id => exact deregister_pres s now id h
  | mark_scanned id => exact mark_as_scanned_pres s id h
  | mark_counted now id => exact mark_as_counted_pres s now id h
  | exits now => exact check_for_exits_pres s now h
  | upd now dets frame => exact update_pres s now dets frame h
  | countv cs objs => exact count_visitors_pres cs s objs h

/-- Every reachable tracker state satisfies the invariants. -/
theorem reachable_wf {s : TS} (h : Reachable s) : WF s := by
  induction h with
  | init maxd maxdist exitt reid => exact wf_init maxd maxdist exitt reid
  | step _ hstep ih => exact (tstep_pres hstep ih).1

/-- C8: along any single public tracker or counter operation applied to a
reachable tracker state, every object's lifecycle state moves weakly
forward in the order absent < `"new"` < `"scanned"` < `"exited"`; in
particular no operation moves a `"scanned"` object back to `"new"` and
an `"exited"` object's state stays `"exited"`; and `deregister` applied
to an object in `"new"` state removes it from the live set with its
recorded state unchanged. -/
theorem c8_state_monotone (s s' : TS) (hreach : Reachable s)
    (hstep : TStep s s') :
    (∀ id, rank (alookup s.states id) ≤ rank (alookup s'.states id))
    ∧ (∀ id, alookup s.states id = some "scanned" →
        alookup s'.states id ≠ some "new")
    ∧ (∀ id, alookup s.states id = some "exited" →
        alookup s'.states id = some "exited")
    ∧ (∀ (now : ℚ) (id : Nat), alookup s.states id = some "new" →
        alookup (Tracker.deregister s now id).states id = some "new"
        ∧ alookup (Tracker.deregister s now id).objects id = none) := by
  have hwf := reachable_wf hreach
  have hpres := tstep_pres hstep hwf
  refine ⟨hpres.2, ?_, ?_, ?_⟩
  · intro id hsc hnew
    have h1 := hpres.2 id
    rw [hsc, rank_scanned, hnew, rank_new] at h1
    omega
  · intro id hex
    have h1 := hpres.2 id
    rw [hex, rank_exited] at h1
    exact rank_three_cases s' hpres.1.2.2.2 id h1
  · intro now id hnew
    have hnsc : ¬ alookup s.states id = some "scanned" := by
      intro hh
      rw [hnew] at hh
      exact absurd (Option.some.inj hh) (by decide)
    rw [Tracker.deregister_eq_of_not_scanned s now id hnsc]
    exact ⟨hnew, alookup_aerase_self _ _⟩

section ConcreteWitness

set_option allowUnsafeReducibility true

attribute [local semireducible] Rat.add Rat.mul Rat.sub Rat.inv Rat.div Rat.neg

/-- Evaluation of the C3 theorem on a counter that already counted id 3
and frames in which id 3 oscillates across the line. -/
theorem c3_witness :
    (VisitorCounter.runFrames wCs3 wTs3 wFrames3).1.count = wCs3.count
    ∧ (VisitorCounter.runFrames wCs3 wTs3 wFrames3).1.count
        ≤ wCs3.count + 1 :=
  ⟨(c3_counted_id_never_recounted wCs3 wTs3 wFrames3 3 (by decide)).1
      (by decide),
   (c3_counted_id_never_recounted wCs3 wTs3 wFrames3 3 (by decide)).2⟩

/-- Evaluation of the C4 theorem on an object last seen Left and now
observed Right: no increment. -/
theorem c4_witness :
    (VisitorCounter.countStep wCs4 wTs3 wO4).1.count = wCs4.count :=
  c4_directional_exclusivity.1 wCs4 wTs3 wO4 ⟨"left", false⟩ (by decide)
    rfl (by decide)

/-- Evaluation of the C5 theorem on three live objects and three
detections: the processing order is a permutation of the row indices. -/
theorem c5_witness :
    (Tracker.sortedRows (wC5s.objects.map Prod.snd)
        (wC5dets.map Tracker.centroidOf)).Perm
      (List.range (wC5s.objects.map Prod.snd).length) :=
  (c5_greedy_assignment wC5s 0 wC5dets none 0 (by decide) (by decide)).1

/-- Evaluation of the amended C6 theorem: with `disappeared = 40` at the
threshold 40 and no detections, the `"scanned"` object is bumped to 41
and evicted as `"exited"` with the exit time stamped. -/
theorem c6_witness :
    alookup (Tracker.update wC6s 5 [] none).disappeared 0 = none
    ∧ alookup (Tracker.update wC6s 5 [] none).states 0 = some "exited"
    ∧ alookup (Tracker.update wC6s 5 [] none).exit_times 0 = some 5 := by
  have h := c6_unmatched_bump_amended wC6s wC6s 5 [] none 0 (100, 100) 40
    "scanned" (Tracker.loadshed_zero wC6s 5).symm (by decide) (by decide)
    (by decide) (by decide) (by decide) (by decide)
    (fun hh => absurd rfl hh)
  refine ⟨?_, ?_, ?_⟩
  · have h1 := h.1
    rw [if_pos (by decide : 40 + 1 > wC6s.max_disappeared)] at h1
    exact h1
  · exact (h.2.2 (by decide) rfl).1
  · exact (h.2.2 (by decide) rfl).2

/-- Evaluation of the amended C7 theorem on a fresh tracker and the
degenerate detection `exC7det`. -/
theorem c7_witness :
    (Tracker.update exC7 0 [exC7det] none).objects
      = [(exC7.next_object_id, Tracker.centroidOf exC7det)]
    ∧ alookup (Tracker.update exC7 0 [exC7det] none).positions
        exC7.next_object_id = some (Tracker.bboxOf exC7det)
    ∧ alookup (Tracker.update exC7 0 [exC7det] none).states
        exC7.next_object_id = some "new" :=
  c7_degenerate_not_rejected_amended exC7 0 exC7det rfl (Or.inl (by decide))

/-- Evaluation of the C9 theorem on `exC2`: deregistering the `"scanned"`
object removes it, exits it, and adds person 7 to the counted set. -/
theorem c9_witness :
    alookup (Tracker.deregister exC2 3 0).objects 0 = none
    ∧ alookup (Tracker.deregister exC2 3 0).states 0 = some "exited"
    ∧ 7 ∈ (Tracker.deregister exC2 3 0).counted_people := by
  have h := c9_deregister_contract exC2 3 0 (100, 100) "scanned" (by decide)
    (by decide) (fun hh => absurd hh (by decide))
  exact ⟨h.1, (h.2.2.2.1 rfl).1, (h.2.2.2.1 rfl).2.2 7 (by decide)⟩

end ConcreteWitness

/-- Evaluation of the C8 theorem on a register step from a freshly
constructed tracker. -/
theorem c8_witness :
    rank (alookup (Tracker.init 40 50 10 false).states 0)
      ≤ rank (alookup ((Tracker.register (Tracker.init 40 50 10 false) 0 none
          (10, 10) ⟨0, 0, 20, 20⟩).1).states 0) :=
  (c8_state_monotone _ _ (Reachable.init 40 50 10 false)
    (TStep.register (Tracker.init 40 50 10 false) 0 none
      (10, 10) ⟨0, 0, 20, 20⟩)).1 0

end PeopleDet
